import Mathlib

/-!
# HTTP server with Go and Redis: a shallow embedding

The Go handlers of `goproject/internal/...` are embedded as pure functions that
take the Redis store as an explicit argument and return the store that the
handler leaves behind together with the HTTP response it wrote.

Modelling conventions.

* The Redis server is an in-memory value of type `Redis`.  String keys and
  sorted-set keys live in two maps; the key families of this program can never
  collide (`user:`, `username:`, `token:`, `next_user_id` hold strings,
  `leaderboard`, `friendrequest:`, `friends:` hold sorted sets), so a command
  never meets a key of the wrong type.  Transport failures of the Redis client
  (the `err != nil` branches that are not `redis.Nil`) are not part of the
  handlers as embedded under their own names: there every command is answered.
  Where a property turns on such a failure, the response to a friend request,
  the handler is embedded a second time with its error returns
  (`AcceptRejectWithErrors`).
* A key with an expiry is a key that is present until it is removed; the 24 hour
  lifetime of a token is not modelled, an expired token is an absent key.
* Sorted-set scores are `float64` in Redis.  The program only stores whole
  numbers (points 0, 1, 3 and Unix timestamps), on which `float64` arithmetic is
  exact below `2^53`; scores are modelled as `Int`.
* Go strings are modelled as `String`.  The only byte-level operation of the
  source, `len(token) > 7 && token[:7] == "Bearer "`, compares with an ASCII
  literal, so it holds on bytes exactly when it holds on characters.
* `encoding/json`, `bcrypt`, `uuid` and the clock are outside the repository.
  The JSON codec is a parameter (`Json`), the clock, the random token and the
  salted hash of one handler invocation are a parameter (`Env`).
* Go `int` is 64 bit: `Atoi` rejects values outside the range and arithmetic on
  page numbers wraps (`wrapInt`).
-/

namespace GoProject

/-! ## strconv -/

/-- The ASCII digit of a number below ten. -/
def digitChar (d : Nat) : Char := Char.ofNat (48 + d)

/-- Whether a character is one of `0` .. `9`. -/
def isDigit (c : Char) : Bool := decide (48 ≤ c.toNat) && decide (c.toNat ≤ 57)

/-- Decimal digits of `n`, most significant first, pushed in front of `acc`;
`fuel` bounds the number of digits. -/
def formatUintAux : Nat → Nat → List Char → List Char
  | 0, _, acc => acc
  | fuel + 1, n, acc =>
    if n < 10 then digitChar n :: acc
    else formatUintAux fuel (n / 10) (digitChar (n % 10) :: acc)

/-- Decimal digits of a natural number (`strconv.FormatUint(n, 10)`). -/
def formatUint (n : Nat) : List Char := formatUintAux (n + 1) n []

/-- Decimal text of an integer (`strconv.Itoa`). -/
def Itoa (i : Int) : String :=
  if i < 0 then ⟨'-' :: formatUint i.natAbs⟩ else ⟨formatUint i.natAbs⟩

/-- Value of a run of decimal digits read left to right, starting from `a`;
`none` when a character is not a digit. -/
def parseDigitsFrom : Nat → List Char → Option Nat
  | a, [] => some a
  | a, c :: cs => if isDigit c then parseDigitsFrom (a * 10 + (c.toNat - 48)) cs else none

/-- Value of a non-empty run of decimal digits. -/
def parseDigits : List Char → Option Nat
  | [] => none
  | c :: cs => parseDigitsFrom 0 (c :: cs)

/-- Integer denoted by an optional sign followed by decimal digits, without a
range check. -/
def parseInt (s : String) : Option Int :=
  match s.data with
  | [] => none
  | c :: cs =>
    if c = '-' then (parseDigits cs).map fun (n : Nat) => -(n : Int)
    else if c = '+' then (parseDigits cs).map fun (n : Nat) => (n : Int)
    else (parseDigits (c :: cs)).map fun (n : Nat) => (n : Int)

/-- Whether an integer fits the 64 bit Go `int`. -/
def inInt64 (i : Int) : Prop := -(2 : Int) ^ 63 ≤ i ∧ i < (2 : Int) ^ 63

instance (i : Int) : Decidable (inInt64 i) := by unfold inInt64; infer_instance

/-- Parsing of a decimal integer (`strconv.Atoi`): `none` stands for the syntax
and the range error. -/
def Atoi (s : String) : Option Int :=
  match parseInt s with
  | none => none
  | some i => if inInt64 i then some i else none

/-- Two's complement wrap-around of 64 bit `int` arithmetic. -/
def wrapInt (i : Int) : Int := (i + 2 ^ 63) % 2 ^ 64 - 2 ^ 63

/-! ## constants -/

abbrev UserPrefix : String := "user:"
abbrev UsernamePrefix : String := "username:"
abbrev NextUserID : String := "next_user_id"
abbrev Leaderboard : String := "leaderboard"
abbrev TokenPrefix : String := "token:"
abbrev FriendRequestPrefix : String := "friendrequest:"
abbrev FriendPrefix : String := "friends:"

/-! ## The Redis store -/

/-- A sorted set: members with their scores, ascending by score and, for equal
scores, by member. -/
abbrev ZSet := List (String × Int)

/-- Lexicographic order of two character sequences (the order of their UTF-8
bytes). -/
def lexLt : List Char → List Char → Bool
  | [], [] => false
  | [], _ :: _ => true
  | _ :: _, [] => false
  | a :: as, b :: bs => decide (a.toNat < b.toNat) || (decide (a = b) && lexLt as bs)

/-- Order of a sorted set: by score, then lexicographically by member. -/
def zle (a b : String × Int) : Prop :=
  a.2 < b.2 ∨ (a.2 = b.2 ∧ lexLt b.1.data a.1.data = false)

instance : DecidableRel zle := fun a b =>
  inferInstanceAs (Decidable (a.2 < b.2 ∨ (a.2 = b.2 ∧ lexLt b.1.data a.1.data = false)))

/-- All entries but those of member `m`. -/
def ZSet.remove (z : ZSet) (m : String) : ZSet := z.filter fun e => decide (e.1 ≠ m)

/-- Score of a member. -/
def ZSet.score (z : ZSet) (m : String) : Option Int :=
  (z.find? fun e => decide (e.1 = m)).map Prod.snd

/-- Set the score of a member, keeping the order. -/
def ZSet.add (z : ZSet) (score : Int) (m : String) : ZSet :=
  List.orderedInsert zle (m, score) (z.remove m)

/-- Members in stored order. -/
def ZSet.members (z : ZSet) : List String := z.map Prod.fst

/-- The elements of a list between two Redis indexes, both inclusive; a negative
index counts from the end. -/
def rangeSlice {α : Type} (l : List α) (start stop : Int) : List α :=
  let n : Int := l.length
  let start := if start < 0 then n + start else start
  let stop := if stop < 0 then n + stop else stop
  let start := if start < 0 then 0 else start
  if start > stop ∨ start ≥ n then []
  else
    let stop := if stop ≥ n then n - 1 else stop
    (l.drop start.toNat).take (stop - start + 1).toNat

/-- The store: string keys and sorted-set keys. -/
structure Redis where
  strs : String → Option String
  zsets : String → ZSet

namespace Redis

/-- The store without any key. -/
def empty : Redis := ⟨fun _ => none, fun _ => []⟩

/-- GET; `none` is `redis.Nil`. -/
def Get (rdb : Redis) (key : String) : Option String := rdb.strs key

/-- SET. -/
def Set (rdb : Redis) (key value : String) : Redis :=
  { rdb with strs := Function.update rdb.strs key (some value) }

/-- DEL of a string key. -/
def Del (rdb : Redis) (key : String) : Redis :=
  { rdb with strs := Function.update rdb.strs key none }

/-- EXISTS of a string key. -/
def Exists (rdb : Redis) (key : String) : Int :=
  if (rdb.strs key).isSome then 1 else 0

/-- INCR: an absent key counts as 0; a value that is not the decimal text of a
64 bit integer, or an increment past the range, is an error. -/
def Incr (rdb : Redis) (key : String) : Except String (Redis × Int) :=
  match rdb.strs key with
  | none => .ok (rdb.Set key (Itoa 1), 1)
  | some v =>
    match Atoi v with
    | none => .error "ERR value is not an integer or out of range"
    | some n =>
      if Itoa n = v ∧ inInt64 (n + 1) then .ok (rdb.Set key (Itoa (n + 1)), n + 1)
      else .error "ERR value is not an integer or out of range"

/-- ZADD of one member. -/
def ZAdd (rdb : Redis) (key : String) (score : Int) (member : String) : Redis :=
  { rdb with zsets := Function.update rdb.zsets key ((rdb.zsets key).add score member) }

/-- ZREM of one member. -/
def ZRem (rdb : Redis) (key : String) (member : String) : Redis :=
  { rdb with zsets := Function.update rdb.zsets key ((rdb.zsets key).remove member) }

/-- ZINCRBY: an absent member counts as score 0. -/
def ZIncrBy (rdb : Redis) (key : String) (increment : Int) (member : String) : Redis :=
  rdb.ZAdd key (((rdb.zsets key).score member).getD 0 + increment) member

/-- ZSCORE. -/
def ZScore (rdb : Redis) (key : String) (member : String) : Option Int :=
  (rdb.zsets key).score member

/-- ZRANGE: members by ascending rank. -/
def ZRange (rdb : Redis) (key : String) (start stop : Int) : List String :=
  rangeSlice (rdb.zsets key).members start stop

/-- ZREVRANGE WITHSCORES: entries by descending rank. -/
def ZRevRangeWithScores (rdb : Redis) (key : String) (start stop : Int) : List (String × Int) :=
  rangeSlice (rdb.zsets key).reverse start stop

end Redis

/-! ## Requests, responses and the capabilities outside the repository -/

/-- The record `user.User`. -/
structure User where
  ID : Int
  Name : String
  Surname : String
  Username : String
  Password : String
deriving DecidableEq

/-- The record `friendship.UserDetails`, the part of an account record that the
friendship listings read. -/
structure UserDetails where
  ID : Int
  Username : String
deriving DecidableEq

/-- The anonymous struct `matchData` of `MatchResultHandler`. -/
structure MatchData where
  UserID1 : Int
  UserID2 : Int
  Score1 : Int
  Score2 : Int
deriving DecidableEq

/-- The body of a friend request: the target id as text. -/
structure FriendRequest where
  UserID : String
deriving DecidableEq

/-- The body of a response to a friend request. -/
structure AcceptFriendRequest where
  RequesterID : String
  Status : String
deriving DecidableEq

/-- One row of the friend-request listing. -/
structure FriendRequestDetails where
  UserID : String
  Username : String
  Date : String
deriving DecidableEq

/-- One row of the friend listing. -/
structure FriendDetails where
  UserID : String
  Username : String
deriving DecidableEq

/-- One row of the leaderboard page. -/
structure LeaderboardRow where
  id : Int
  username : String
  rank : Int
  score : Int
deriving DecidableEq

/-- The values that the handlers put in the `result` field of the envelope. -/
inductive Payload where
  | null
  | bool (b : Bool)
  | text (s : String)
  | int (i : Int)
  | user (u : User)
  | userToken (u : User) (token : String)
  | requests (l : List FriendRequestDetails)
  | friends (l : List FriendDetails)
  | leaderboard (l : List LeaderboardRow)
deriving DecidableEq

/-- The envelope `Response{Status, Result, Message}`. -/
structure Response where
  Status : Bool
  Result : Payload
  Message : String
deriving DecidableEq

/-- What a handler writes: `http.Error(w, msg, code)`, or a JSON envelope with a
status code (200 unless `WriteHeader` was called). -/
inductive HttpResponse where
  | error (msg : String) (code : Nat)
  | json (code : Nat) (r : Response)
deriving DecidableEq

/-- The transport status of a response. -/
def HttpResponse.code : HttpResponse → Nat
  | .error _ code => code
  | .json code _ => code

/-- A response that reports a failure: a non-2xx transport status or an
envelope with `status:false`. -/
def HttpResponse.isFailure : HttpResponse → Bool
  | .error _ code => decide (400 ≤ code)
  | .json code r => decide (400 ≤ code) || !r.Status

/-- The parts of `*http.Request` that the handlers read.  `ctxUserID` is the
value that `AuthMiddleware` stores in the request context. -/
structure Request where
  method : String
  authorization : String
  query : String → String
  body : String
  ctxUserID : Option Int := none

/-- The package `encoding/json` on the types of this program.  A decoder
answers with the decoded value or with the text of its error. -/
structure Json where
  decodeUser : String → Except String User
  decodeMatchData : String → Except String MatchData
  decodeFriendRequest : String → Except String FriendRequest
  decodeAcceptFriendRequest : String → Except String AcceptFriendRequest
  marshalUser : User → String
  unmarshalUser : String → Except String User
  unmarshalUserDetails : String → Except String UserDetails

/-- What one handler invocation draws from outside: the successive readings of
the clock, the fresh token of `uuid.New().String()`, and `bcrypt`. -/
structure Env where
  now : Nat → Int
  rfc3339 : Nat → String
  uuid : String
  hash : String → Option String
  check : String → String → Bool

deriving instance DecidableEq for Except

/-- A handler: from the store and a request to the store it leaves and the
response it writes. -/
abbrev HandlerFunc := Env → Redis → Request → Redis × HttpResponse

/-- The shape of `uuid.New().String()`: 36 characters, hyphens at positions 8,
13, 18 and 23, lowercase hexadecimal digits elsewhere. -/
def isHexLower (c : Char) : Bool :=
  (decide (48 ≤ c.toNat) && decide (c.toNat ≤ 57)) || (decide (97 ≤ c.toNat) && decide (c.toNat ≤ 102))

/-- Whether the characters from position `i` on follow the UUID layout. -/
def uuidCharsFrom : Nat → List Char → Bool
  | _, [] => true
  | i, c :: cs =>
    (if i = 8 ∨ i = 13 ∨ i = 18 ∨ i = 23 then decide (c = '-') else isHexLower c)
      && uuidCharsFrom (i + 1) cs

/-- Whether a string has the textual form of a UUID. -/
def isUUIDString (s : String) : Bool := decide (s.data.length = 36) && uuidCharsFrom 0 s.data

/-! ## internal/authent -/

/-- The function `authent.GenerateToken`: binds a fresh token to the user id. -/
def GenerateToken (env : Env) (rdb : Redis) (userID : Int) : Redis × String :=
  let token := env.uuid
  let key := TokenPrefix ++ token
  (rdb.Set key (Itoa userID), token)

/-- The function `authent.GetUserIDFromToken`. -/
def GetUserIDFromToken (rdb : Redis) (r : Request) : Except String Int :=
  let token := r.authorization
  if token = "" then .error "Authorization token is missing"
  else
    let token : String :=
      if token.data.length > 7 ∧ token.data.take 7 = "Bearer ".data then ⟨token.data.drop 7⟩
      else token
    let key := TokenPrefix ++ token
    match rdb.Get key with
    | none => .error "Invalid or expired token"
    | some userIDStr =>
      match Atoi userIDStr with
      | none => .error "Invalid user ID in token"
      | some userID => .ok userID

/-! ## internal/middleware -/

/-- The table `allowedMethods`. -/
def allowedMethods : List (String × String) :=
  [("RegisterHandler", "POST"), ("LoginHandler", "POST"), ("UpdateHandler", "POST"),
   ("MatchResultHandler", "POST"), ("LeaderboardHandler", "GET"),
   ("UserDetailsHandler", "GET"), ("SimulationHandler", "GET")]

/-- The function `middleware.AuthMiddleware`. -/
def AuthMiddleware (handlerName : String) (next : HandlerFunc) : HandlerFunc :=
  fun env rdb r =>
    match allowedMethods.lookup handlerName with
    | none => (rdb, .json 500 ⟨false, .null, "Handler not found"⟩)
    | some allowedMethod =>
      if r.method ≠ allowedMethod then
        (rdb, .json 405 ⟨false, .null, "Method not allowed"⟩)
      else if handlerName ≠ "RegisterHandler" ∧ handlerName ≠ "LoginHandler" then
        match GetUserIDFromToken rdb r with
        | .error err => (rdb, .json 401 ⟨false, .null, "Unauthorized: " ++ err⟩)
        | .ok userID => next env rdb { r with ctxUserID := some userID }
      else next env rdb r

/-! ## internal/user -/

/-- The function `user.passwordToHash`. -/
def passwordToHash (env : Env) (password : String) : Option String := env.hash password

/-- The function `user.checkHashedPassword`. -/
def checkHashedPassword (env : Env) (password hash : String) : Bool := env.check password hash

/-- The function `user.checkUserExists`. -/
def checkUserExists (rdb : Redis) (userID : Int) : Bool :=
  let key := UserPrefix ++ Itoa userID
  decide (rdb.Exists key = 1)

/-- The copy of a record that the handlers return: name, surname and username
only. -/
def responseUser (u : User) : User :=
  { ID := 0, Name := u.Name, Surname := u.Surname, Username := u.Username, Password := "" }

/-- The handler `user.RegisterHandler`. -/
def RegisterHandler (J : Json) : HandlerFunc := fun env rdb r =>
  match J.decodeUser r.body with
  | .error err => (rdb, .error err 400)
  | .ok newUser =>
    let existingUsername := (rdb.Get (UsernamePrefix ++ newUser.Username)).getD ""
    if existingUsername ≠ "" then
      (rdb, .json 200 ⟨false, .null, "Username already exists!"⟩)
    else
      match passwordToHash env newUser.Password with
      | none => (rdb, .json 200 ⟨false, .null, "Failed to hash password!"⟩)
      | some hashedPassword =>
        let newUser := { newUser with Password := hashedPassword }
        match rdb.Incr NextUserID with
        | .error err => (rdb, .error err 500)
        | .ok (rdb, id) =>
          let newUser := { newUser with ID := id }
          let userJson := J.marshalUser newUser
          let rdb := rdb.Set (UserPrefix ++ Itoa newUser.ID) userJson
          let rdb := rdb.Set (UsernamePrefix ++ newUser.Username) (Itoa newUser.ID)
          let (rdb, token) := GenerateToken env rdb newUser.ID
          (rdb, .json 200 ⟨true, .userToken (responseUser newUser) token, ""⟩)

/-- The handler `user.LoginHandler`. -/
def LoginHandler (J : Json) : HandlerFunc := fun env rdb r =>
  match J.decodeUser r.body with
  | .error err => (rdb, .error err 400)
  | .ok loginDetails =>
    let idRedis := (rdb.Get (UsernamePrefix ++ loginDetails.Username)).getD ""
    if idRedis = "" then (rdb, .json 200 ⟨false, .null, "User not found!"⟩)
    else
      match Atoi idRedis with
      | none => (rdb, .error "strconv.Atoi: parsing error" 500)
      | some id =>
        match rdb.Get (UserPrefix ++ Itoa id) with
        | none => (rdb, .error "redis: nil" 500)
        | some userJSON =>
          match J.unmarshalUser userJSON with
          | .error err => (rdb, .error err 500)
          | .ok user =>
            if !checkHashedPassword env loginDetails.Password user.Password then
              (rdb, .json 200 ⟨false, .null, "Invalid password!"⟩)
            else
              let (rdb, token) := GenerateToken env rdb user.ID
              (rdb, .json 200 ⟨true, .userToken (responseUser user) token, ""⟩)

/-- The handler `user.UserDetailsHandler`. -/
def UserDetailsHandler (J : Json) : HandlerFunc := fun _ rdb r =>
  let idRedis := r.query "id"
  if idRedis = "" then (rdb, .json 200 ⟨false, .null, "ID is required"⟩)
  else
    match rdb.Get ("user:" ++ idRedis) with
    | none => (rdb, .error "User not found!" 404)
    | some userJson =>
      match J.unmarshalUser userJson with
      | .error err => (rdb, .error err 500)
      | .ok user => (rdb, .json 200 ⟨true, .user (responseUser user), ""⟩)

/-- The handler `user.UpdateInfoHandler`. -/
def UpdateInfoHandler (J : Json) : HandlerFunc := fun env rdb r =>
  if r.method ≠ "POST" then (rdb, .error "Method not allowed" 405)
  else
    match GetUserIDFromToken rdb r with
    | .error err => (rdb, .error err 401)
    | .ok userID =>
      match J.decodeUser r.body with
      | .error err => (rdb, .error err 400)
      | .ok updatedUser =>
        if userID ≠ updatedUser.ID then
          (rdb, .error "Cannot change another user's information" 403)
        else if !checkUserExists rdb updatedUser.ID then (rdb, .error "User not found!" 404)
        else
          match rdb.Get (UserPrefix ++ Itoa updatedUser.ID) with
          | none => (rdb, .error "User not found!" 404)
          | some existingUserJson =>
            match J.unmarshalUser existingUserJson with
            | .error err => (rdb, .error err 500)
            | .ok existingUser =>
              let changes : Bool :=
                decide (updatedUser.Username ≠ "" ∧ updatedUser.Username ≠ existingUser.Username)
              let existingUsername :=
                (rdb.Get (UsernamePrefix ++ updatedUser.Username)).getD ""
              if changes && decide (existingUsername ≠ "") then
                (rdb, .json 200 ⟨false, .null, "Username already exists!"⟩)
              else
                let rdb :=
                  if changes then
                    (rdb.Set (UsernamePrefix ++ updatedUser.Username)
                      (Itoa updatedUser.ID)).Del (UsernamePrefix ++ existingUser.Username)
                  else rdb
                let existingUser :=
                  { existingUser with
                    Name := updatedUser.Name, Surname := updatedUser.Surname,
                    Username := updatedUser.Username }
                let hashed : Option User :=
                  if updatedUser.Password ≠ "" then
                    (passwordToHash env updatedUser.Password).map fun h =>
                      { existingUser with Password := h }
                  else some existingUser
                match hashed with
                | none => (rdb, .json 200 ⟨false, .null, "Failed to hash password!"⟩)
                | some existingUser =>
                  let updatedUserJson := J.marshalUser existingUser
                  let rdb := rdb.Set (UserPrefix ++ Itoa existingUser.ID) updatedUserJson
                  (rdb, .json 200 ⟨true, .user existingUser, ""⟩)

/-- The function `user.GetUserByID`. -/
def GetUserByID (J : Json) (rdb : Redis) (id : Int) : Except String User :=
  match rdb.Get (UserPrefix ++ Itoa id) with
  | none => .error "User not found"
  | some userJson =>
    match J.unmarshalUser userJson with
    | .error err => .error err
    | .ok u => .ok u

/-! ## internal/match -/

/-- The method `addScoreToUser`. -/
def addScoreToUser (rdb : Redis) (userid : String) (score : Int) : Redis :=
  rdb.ZIncrBy Leaderboard score userid

/-- The points of the two participants, lines 58 to 67 of `match.go`: both start
at 1, a strict winner takes 3 and leaves 0. -/
def matchPoints (score1 score2 : Int) : Int × Int :=
  let point1 : Int := 1
  let point2 : Int := 1
  if score1 > score2 then (3, 0)
  else if score1 < score2 then (0, 3)
  else (point1, point2)

/-- The handler `match.MatchResultHandler`. -/
def MatchResultHandler (J : Json) : HandlerFunc := fun _ rdb r =>
  if r.method ≠ "POST" then (rdb, .error "Method not allowed" 405)
  else
    match J.decodeMatchData r.body with
    | .error err => (rdb, .error err 400)
    | .ok matchData =>
      let userID1 := Itoa matchData.UserID1
      let userID2 := Itoa matchData.UserID2
      let points := matchPoints matchData.Score1 matchData.Score2
      let rdb := addScoreToUser rdb userID1 points.1
      let rdb := addScoreToUser rdb userID2 points.2
      match GetUserByID J rdb matchData.UserID1 with
      | .error err => (rdb, .error err 500)
      | .ok _ =>
        match GetUserByID J rdb matchData.UserID2 with
        | .error err => (rdb, .error err 500)
        | .ok _ => (rdb, .json 200 ⟨true, .bool true, ""⟩)

/-- The loop of `LeaderboardHandler` over the entries of the page, `i` being
the index of the first entry of `users`. -/
def leaderboardRows (J : Json) (rdb : Redis) (start : Int) :
    Nat → List (String × Int) → Except String (List LeaderboardRow)
  | _, [] => .ok []
  | i, redisUser :: users =>
    match Atoi redisUser.1 with
    | none => .error "strconv.Atoi: parsing error"
    | some userID =>
      match GetUserByID J rdb userID with
      | .error err => .error err
      | .ok u =>
        match leaderboardRows J rdb start (i + 1) users with
        | .error err => .error err
        | .ok rows =>
          .ok (⟨u.ID, u.Username, wrapInt (start + i + 1), redisUser.2⟩ :: rows)

/-- The handler `match.LeaderboardHandler`. -/
def LeaderboardHandler (J : Json) : HandlerFunc := fun _ rdb r =>
  if r.method ≠ "GET" then (rdb, .error "Method not allowed" 405)
  else
    let pageStr := r.query "page"
    let countStr := r.query "count"
    let page : Int :=
      match Atoi pageStr with
      | none => 1
      | some page => if page < 1 then 1 else page
    let count : Int :=
      match Atoi countStr with
      | none => 10
      | some count => if count < 1 then 10 else count
    let start := wrapInt ((page - 1) * count)
    let stop := wrapInt (start + count - 1)
    let users := rdb.ZRevRangeWithScores Leaderboard start stop
    match leaderboardRows J rdb start 0 users with
    | .error err => (rdb, .error err 500)
    | .ok leaderboard => (rdb, .json 200 ⟨true, .leaderboard leaderboard, ""⟩)

/-! ## internal/friendship -/

/-- The function `friendship.SearchUserByUsername`. -/
def SearchUserByUsername (rdb : Redis) (username : String) : Except String Int :=
  match rdb.Get (UsernamePrefix ++ username) with
  | none => .error "redis: nil"
  | some userIDStr =>
    match Atoi userIDStr with
    | none => .error "strconv.Atoi: parsing error"
    | some userID => .ok userID

/-- The handler `friendship.UserSearchHandler`. -/
def UserSearchHandler : HandlerFunc := fun _ rdb r =>
  let username := r.query "username"
  if username = "" then (rdb, .error "Username is required" 400)
  else
    match GetUserIDFromToken rdb r with
    | .error _ => (rdb, .error "Invalid token" 401)
    | .ok tokenUserID =>
      match SearchUserByUsername rdb username with
      | .error _ => (rdb, .error "User not found" 404)
      | .ok userID =>
        if userID = tokenUserID then
          (rdb, .error "You cannot search your own username" 400)
        else (rdb, .json 200 ⟨true, .int userID, ""⟩)

/-- The handler `friendship.FriendRequestHandler`. -/
def FriendRequestHandler (J : Json) : HandlerFunc := fun env rdb r =>
  match GetUserIDFromToken rdb r with
  | .error _ => (rdb, .error "Invalid token" 401)
  | .ok userID =>
    match J.decodeFriendRequest r.body with
    | .error err => (rdb, .error ("Invalid request body: " ++ err) 400)
    | .ok request =>
      let targetUserID := request.UserID
      if Itoa userID = targetUserID then
        (rdb, .error "Cannot send friend request to oneself." 400)
      else
        let userKey := UserPrefix ++ targetUserID
        match rdb.Get userKey with
        | none => (rdb, .error "Target user does not exist." 404)
        | some _ =>
          let timestamp := env.now 0
          let rdb := rdb.ZAdd (FriendRequestPrefix ++ targetUserID) timestamp (Itoa userID)
          (rdb, .json 200 ⟨true, .text "Friend request sent", ""⟩)

/-- The bounds of a page: `start := (page - 1) * count`, `end := start + count - 1`. -/
def pageWindow (page count : Int) : Int × Int :=
  let start := wrapInt ((page - 1) * count)
  let stop := wrapInt (start + count - 1)
  (start, stop)

/-- The loop of `FriendRequestListHandler` over the requesters of the page: the
first requester whose record is absent or does not parse ends the call. -/
def friendRequestRows (J : Json) (env : Env) (rdb : Redis) :
    Nat → List String → Except String (List FriendRequestDetails)
  | _, [] => .ok []
  | i, requestID :: rest =>
    match rdb.Get (UserPrefix ++ requestID) with
    | none => .error "Error retrieving user data"
    | some userData =>
      match J.unmarshalUserDetails userData with
      | .error _ => .error "Error parsing user data"
      | .ok userDetails =>
        match friendRequestRows J env rdb (i + 1) rest with
        | .error err => .error err
        | .ok rows => .ok (⟨requestID, userDetails.Username, env.rfc3339 i⟩ :: rows)

/-- The handler `friendship.FriendRequestListHandler`. -/
def FriendRequestListHandler (J : Json) : HandlerFunc := fun env rdb r =>
  match GetUserIDFromToken rdb r with
  | .error _ => (rdb, .error "Invalid token" 401)
  | .ok userID =>
    let pageStr := r.query "page"
    let countStr := r.query "count"
    match Atoi pageStr with
    | none => (rdb, .error "Invalid page parameter" 400)
    | some page =>
      if page < 1 then (rdb, .error "Invalid page parameter" 400)
      else
        match Atoi countStr with
        | none => (rdb, .error "Invalid count parameter" 400)
        | some count =>
          if count < 1 then (rdb, .error "Invalid count parameter" 400)
          else
            let window := pageWindow page count
            let friendRequests :=
              rdb.ZRange (FriendRequestPrefix ++ Itoa userID) window.1 window.2
            match friendRequestRows J env rdb 0 friendRequests with
            | .error err => (rdb, .error err 500)
            | .ok requests => (rdb, .json 200 ⟨true, .requests requests, ""⟩)

/-- The handler `friendship.AcceptRejectFriendRequestHandler` when every store
command is answered; `AcceptRejectWithErrors` is the handler with the error
returns of its store commands. -/
def AcceptRejectFriendRequestHandler (J : Json) : HandlerFunc := fun env rdb r =>
  match GetUserIDFromToken rdb r with
  | .error _ => (rdb, .error "Invalid token" 401)
  | .ok userID =>
    match J.decodeAcceptFriendRequest r.body with
    | .error _ => (rdb, .error "Invalid request body" 400)
    | .ok request =>
      if request.Status ≠ "accept" ∧ request.Status ≠ "reject" then
        (rdb, .error "Invalid status" 400)
      else
        let friendRequestsKey := FriendRequestPrefix ++ Itoa userID
        let friendRequests := rdb.ZRange friendRequestsKey 0 (-1)
        let found : Bool := friendRequests.any fun requesterID =>
          decide (requesterID = request.RequesterID)
        if !found then (rdb, .error "Friend request not found" 404)
        else
          let processed : HttpResponse := .json 200 ⟨true, .text "Friend request processed", ""⟩
          if request.Status = "accept" then
            let friendKey := FriendPrefix ++ Itoa userID
            let rdb := rdb.ZAdd friendKey (env.now 0) request.RequesterID
            let rdb := rdb.ZAdd (FriendPrefix ++ request.RequesterID) (env.now 1) (Itoa userID)
            let rdb := rdb.ZRem friendRequestsKey request.RequesterID
            (rdb, processed)
          else if request.Status = "reject" then
            let rdb := rdb.ZRem friendRequestsKey request.RequesterID
            (rdb, processed)
          else (rdb, processed)

/-- The loop of `FriendListHandler` over the friends of the page: a friend
without a record is passed over, a record that does not parse ends the call. -/
def friendRows (J : Json) (rdb : Redis) : List String → Except String (List FriendDetails)
  | [] => .ok []
  | friendID :: rest =>
    match rdb.Get (UserPrefix ++ friendID) with
    | none => friendRows J rdb rest
    | some userData =>
      match J.unmarshalUserDetails userData with
      | .error _ => .error "Error parsing user data"
      | .ok userDetails =>
        match friendRows J rdb rest with
        | .error err => .error err
        | .ok rows => .ok (⟨friendID, userDetails.Username⟩ :: rows)

/-- The handler `friendship.FriendListHandler`. -/
def FriendListHandler (J : Json) : HandlerFunc := fun _ rdb r =>
  match GetUserIDFromToken rdb r with
  | .error _ => (rdb, .error "Invalid token" 401)
  | .ok userID =>
    let pageStr := r.query "page"
    let countStr := r.query "count"
    match Atoi pageStr with
    | none => (rdb, .error "Invalid page parameter" 400)
    | some page =>
      if page < 1 then (rdb, .error "Invalid page parameter" 400)
      else
        match Atoi countStr with
        | none => (rdb, .error "Invalid count parameter" 400)
        | some count =>
          if count < 1 then (rdb, .error "Invalid count parameter" 400)
          else
            let window := pageWindow page count
            let friends := rdb.ZRange (FriendPrefix ++ Itoa userID) window.1 window.2
            match friendRows J rdb friends with
            | .error err => (rdb, .error err 500)
            | .ok friendDetails => (rdb, .json 200 ⟨true, .friends friendDetails, ""⟩)

/-! ## cmd/main -/

/-- The routes registered by `main`, in order.  `SimulationHandler` is the
test-data generator of `internal/simulation`, which draws from a random source;
it is taken as given. -/
def routes (J : Json) (SimulationHandler : HandlerFunc) : List (String × HandlerFunc) :=
  [("/register", AuthMiddleware "RegisterHandler" (RegisterHandler J)),
   ("/login", AuthMiddleware "LoginHandler" (LoginHandler J)),
   ("/update", AuthMiddleware "UpdateHandler" (UpdateInfoHandler J)),
   ("/matchresult", AuthMiddleware "MatchResultHandler" (MatchResultHandler J)),
   ("/leaderboard", AuthMiddleware "LeaderboardHandler" (LeaderboardHandler J)),
   ("/userdetails", AuthMiddleware "UserDetailsHandler" (UserDetailsHandler J)),
   ("/simulation", AuthMiddleware "SimulationHandler" SimulationHandler),
   ("/friendship/search", UserSearchHandler),
   ("/friendship/friendrequest", FriendRequestHandler J),
   ("/friendship/friendrequestlist", FriendRequestListHandler J),
   ("/friendship/respondrequest", AcceptRejectFriendRequestHandler J),
   ("/friendship/friendlist", FriendListHandler J)]

/-- The handler that the server runs for a path, if the path is routed. -/
def serve (J : Json) (SimulationHandler : HandlerFunc) (path : String) : Option HandlerFunc :=
  (routes J SimulationHandler).lookup path

/-! ## Notions used to state the properties -/

/-- The cumulative score of an account on the leaderboard: the score of its
entry, 0 when it has no entry. -/
def cumulative (rdb : Redis) (account : String) : Int :=
  (rdb.ZScore Leaderboard account).getD 0

/-- The points that one settled match awards to an account: those of
participant 1 if it is participant 1, plus those of participant 2 if it is
participant 2. -/
def awarded (m : MatchData) (account : String) : Int :=
  (if Itoa m.UserID1 = account then (matchPoints m.Score1 m.Score2).1 else 0) +
    (if Itoa m.UserID2 = account then (matchPoints m.Score1 m.Score2).2 else 0)

/-- The store after a sequence of match-result requests, settled one after the
other. -/
def settleAll (J : Json) (env : Env) (rdb : Redis) (rs : List Request) : Redis :=
  rs.foldl (fun s r => (MatchResultHandler J env s r).1) rdb

/-- The pending-request set of a target: the requesters, in stored order. -/
def pending (rdb : Redis) (target : String) : List String :=
  (rdb.zsets (FriendRequestPrefix ++ target)).members

/-- The friend set of an account: the friends, in stored order. -/
def friendsOf (rdb : Redis) (account : String) : List String :=
  (rdb.zsets (FriendPrefix ++ account)).members

/-- The response of a processed accept or reject. -/
def processed : HttpResponse := .json 200 ⟨true, .text "Friend request processed", ""⟩

/-- Which store commands of one response to a friend request return an error
other than `redis.Nil`: the read of the pending set (friendship.go 337), the
write into the friend set of the responder (360), the write into the friend set
of the requester (366), the removal of the pending entry (373, 380). -/
structure RespondErrors where
  zrange : Bool
  zaddOwn : Bool
  zaddRequester : Bool
  zrem : Bool
deriving DecidableEq

/-- The handler `friendship.AcceptRejectFriendRequestHandler` with the early
return after each store command (friendship.go 338-341, 361-364, 367-370,
374-377, 381-384).  A command that returns an error has not changed the store;
what the commands before it wrote stays. -/
def AcceptRejectWithErrors (errs : RespondErrors) (J : Json) : HandlerFunc := fun env rdb r =>
  match GetUserIDFromToken rdb r with
  | .error _ => (rdb, .error "Invalid token" 401)
  | .ok userID =>
    match J.decodeAcceptFriendRequest r.body with
    | .error _ => (rdb, .error "Invalid request body" 400)
    | .ok request =>
      if request.Status ≠ "accept" ∧ request.Status ≠ "reject" then
        (rdb, .error "Invalid status" 400)
      else
        let friendRequestsKey := FriendRequestPrefix ++ Itoa userID
        if errs.zrange then (rdb, .error "Error retrieving friend requests" 500)
        else
          let friendRequests := rdb.ZRange friendRequestsKey 0 (-1)
          let found : Bool := friendRequests.any fun requesterID =>
            decide (requesterID = request.RequesterID)
          if !found then (rdb, .error "Friend request not found" 404)
          else if request.Status = "accept" then
            let friendKey := FriendPrefix ++ Itoa userID
            if errs.zaddOwn then (rdb, .error "Error adding friend" 500)
            else
              let rdb := rdb.ZAdd friendKey (env.now 0) request.RequesterID
              if errs.zaddRequester then (rdb, .error "Error adding friend" 500)
              else
                let rdb :=
                  rdb.ZAdd (FriendPrefix ++ request.RequesterID) (env.now 1) (Itoa userID)
                if errs.zrem then (rdb, .error "Error removing friend request" 500)
                else (rdb.ZRem friendRequestsKey request.RequesterID, processed)
          else if request.Status = "reject" then
            if errs.zrem then (rdb, .error "Error removing friend request" 500)
            else (rdb.ZRem friendRequestsKey request.RequesterID, processed)
          else (rdb, processed)

/-- The stores reachable from the empty store by register, send and respond
operations on any requests, where the store commands of a respond may return
errors; `allowed` says which errors can occur. -/
inductive ReachableWithErrors (J : Json) (allowed : RespondErrors → Prop) : Redis → Prop where
  | empty : ReachableWithErrors J allowed Redis.empty
  | register {rdb : Redis} (env : Env) (r : Request) :
      ReachableWithErrors J allowed rdb →
        ReachableWithErrors J allowed (RegisterHandler J env rdb r).1
  | send {rdb : Redis} (env : Env) (r : Request) :
      ReachableWithErrors J allowed rdb →
        ReachableWithErrors J allowed (FriendRequestHandler J env rdb r).1
  | respond {rdb : Redis} (errs : RespondErrors) (env : Env) (r : Request) :
      allowed errs → ReachableWithErrors J allowed rdb →
        ReachableWithErrors J allowed (AcceptRejectWithErrors errs J env rdb r).1

/-- The response of a friend request that was stored. -/
def requestSent : HttpResponse := .json 200 ⟨true, .text "Friend request sent", ""⟩

/-- The kinds of operation that write to the store. -/
inductive OpKind where
  | register
  | update
  | send
  | respond
deriving DecidableEq

/-- One operation: its kind, the environment it runs in and its request. -/
structure Op where
  kind : OpKind
  env : Env
  request : Request

/-- The store that an operation leaves. -/
def Op.run (J : Json) (rdb : Redis) (op : Op) : Redis :=
  match op.kind with
  | .register => (RegisterHandler J op.env rdb op.request).1
  | .update => (UpdateInfoHandler J op.env rdb op.request).1
  | .send => (FriendRequestHandler J op.env rdb op.request).1
  | .respond => (AcceptRejectFriendRequestHandler J op.env rdb op.request).1

/-- The stores reachable from the empty store by operations of the given
kinds, on any requests. -/
inductive Reachable (J : Json) (kinds : List OpKind) : Redis → Prop where
  | empty : Reachable J kinds Redis.empty
  | step {rdb : Redis} (op : Op) :
      op.kind ∈ kinds → Reachable J kinds rdb → Reachable J kinds (op.run J rdb)

/-- The page number that `LeaderboardHandler` works with, lines 100 to 103 of
`match.go`: 1 when the parameter does not parse or is below 1. -/
def effectivePage (pageStr : String) : Int :=
  match Atoi pageStr with
  | none => 1
  | some page => if page < 1 then 1 else page

/-- The page size that `LeaderboardHandler` works with, lines 105 to 108 of
`match.go`: 10 when the parameter does not parse or is below 1. -/
def effectiveCount (countStr : String) : Int :=
  match Atoi countStr with
  | none => 10
  | some count => if count < 1 then 10 else count

/-- A pagination parameter that is not usable as given: it is not the text of
an `int` (`strconv.Atoi` fails), or it is less than 1. -/
def invalidParam (s : String) : Bool :=
  match Atoi s with
  | none => true
  | some v => decide (v < 1)

/-- The row of the friend listing for a friend that resolves: its record is
present and parses. -/
def resolveFriend (J : Json) (rdb : Redis) (friendID : String) : Option FriendDetails :=
  match rdb.Get (UserPrefix ++ friendID) with
  | none => none
  | some userData =>
    match J.unmarshalUserDetails userData with
    | .error _ => none
    | .ok userDetails => some ⟨friendID, userDetails.Username⟩

/-- The account record stored under an id, when it is present and parses. -/
def recordOf (J : Json) (rdb : Redis) (id : Int) : Option User :=
  match rdb.Get (UserPrefix ++ Itoa id) with
  | none => none
  | some userJson =>
    match J.unmarshalUser userJson with
    | .error _ => none
    | .ok u => some u

/-- Whether the record of a friend, if there is one, parses. -/
def parsesIfPresent (J : Json) (rdb : Redis) (friendID : String) : Bool :=
  match rdb.Get (UserPrefix ++ friendID) with
  | none => true
  | some userData =>
    match J.unmarshalUserDetails userData with
    | .error _ => false
    | .ok _ => true

/-- The token that `GetUserIDFromToken` looks up for a header value: the value
itself, or what follows "Bearer ". -/
def bearerToken (header : String) : String :=
  if header.data.length > 7 ∧ header.data.take 7 = "Bearer ".data then ⟨header.data.drop 7⟩
  else header

/-! ## Concrete instances

A codec of comma-separated fields and a fixed environment, on which the
theorems below are instantiated. -/

/-- The fields of a comma-separated line. -/
def splitFields : List Char → List (List Char)
  | [] => [[]]
  | c :: cs =>
    if c = ',' then [] :: splitFields cs
    else
      match splitFields cs with
      | [] => [[c]]
      | f :: fs => (c :: f) :: fs

/-- A user record read from the five fields id, name, surname, username,
password. -/
def fieldsUser (s : String) : Except String User :=
  match splitFields s.data with
  | [i, n, sn, un, pw] =>
    match Atoi ⟨i⟩ with
    | some i => .ok ⟨i, ⟨n⟩, ⟨sn⟩, ⟨un⟩, ⟨pw⟩⟩
    | none => .error "invalid id"
  | _ => .error "unexpected end of input"

/-- A codec that writes a record as comma-separated fields. -/
def fieldJson : Json where
  decodeUser := fieldsUser
  decodeMatchData s :=
    match (splitFields s.data).map fun f => Atoi ⟨f⟩ with
    | [some a, some b, some c, some d] => .ok ⟨a, b, c, d⟩
    | _ => .error "unexpected end of input"
  decodeFriendRequest s := .ok ⟨s⟩
  decodeAcceptFriendRequest s :=
    match splitFields s.data with
    | [a, b] => .ok ⟨⟨a⟩, ⟨b⟩⟩
    | _ => .error "unexpected end of input"
  marshalUser u :=
    Itoa u.ID ++ "," ++ u.Name ++ "," ++ u.Surname ++ "," ++ u.Username ++ "," ++ u.Password
  unmarshalUser := fieldsUser
  unmarshalUserDetails s :=
    match fieldsUser s with
    | .ok u => .ok ⟨u.ID, u.Username⟩
    | .error err => .error err

/-- A fixed environment: a clock that advances by one second per reading, one
token, and a hash that marks the password. -/
def fixedEnv : Env where
  now k := 1700000000 + k
  rfc3339 _ := "2023-11-14T22:13:20Z"
  uuid := "123e4567-e89b-12d3-a456-426614174000"
  hash pw := some ("$2a$14$" ++ pw)
  check pw h := decide (h = "$2a$14$" ++ pw)

/-- A request with the given method, token and body, and no query. -/
def mkRequest (method authorization body : String) : Request :=
  { method := method, authorization := authorization, query := fun _ => "", body := body }

/-- A store with the accounts 3 and 7, a token of account 7, and a request of
account 3 pending at account 7. -/
def sampleStore : Redis :=
  (((Redis.empty.Set "user:3" "3,Ada,Lovelace,ada,$2a$14$pw").Set "user:7"
    "7,Alan,Turing,alan,$2a$14$pw").Set "token:123e4567-e89b-12d3-a456-426614174000" "7").ZAdd
    "friendrequest:7" 1700000000 "3"

/-- The header value that carries the token of account 7. -/
def bearer7 : String := "Bearer 123e4567-e89b-12d3-a456-426614174000"

/-- Registration of the account ada. -/
def opRegisterAda : Op :=
  ⟨.register, fixedEnv, mkRequest "POST" "" "0,Ada,Lovelace,ada,pw"⟩

/-- Registration of the account alan, with a token of its own. -/
def opRegisterAlan : Op :=
  ⟨.register, { fixedEnv with uuid := "223e4567-e89b-12d3-a456-426614174000" },
    mkRequest "POST" "" "0,Alan,Turing,alan,pw"⟩

/-- The second account sends a friend request to account 1. -/
def opSendToAda : Op :=
  ⟨.send, fixedEnv, mkRequest "POST" "223e4567-e89b-12d3-a456-426614174000" "1"⟩

/-- The first account accepts the request of account 2. -/
def opAdaAccepts : Op :=
  ⟨.respond, fixedEnv, mkRequest "POST" "Bearer 123e4567-e89b-12d3-a456-426614174000" "2,accept"⟩

/-- The store after two registrations, a friend request and its acceptance. -/
def friendsStore : Redis :=
  opAdaAccepts.run fieldJson (opSendToAda.run fieldJson
    (opRegisterAlan.run fieldJson (opRegisterAda.run fieldJson Redis.empty)))

/-- A stand-in for the test-data generator: it answers without touching the
store. -/
def idleSimulation : HandlerFunc := fun _ rdb _ =>
  (rdb, .json 200 ⟨true, .null, "Simulation completed successfully"⟩)

/-- A request with the query parameters page and count. -/
def pageRequest (method authorization page count : String) : Request :=
  { method := method, authorization := authorization,
    query := fun k => if k = "page" then page else if k = "count" then count else "",
    body := "" }

/-- The store of the two friends with a leaderboard: account 1 holds 3 points,
account 2 holds 1 point. -/
def scoredStore : Redis :=
  (friendsStore.ZIncrBy Leaderboard 3 "1").ZIncrBy Leaderboard 1 "2"

/-- The scored store with an entry for account 9, which has no record. -/
def orphanStore : Redis := scoredStore.ZIncrBy Leaderboard 5 "9"

/-- The header value that carries the token of the account ada. -/
def bearerAda : String := "Bearer 123e4567-e89b-12d3-a456-426614174000"

/-- The header value that carries the token of the account alan. -/
def bearerAlan : String := "Bearer 223e4567-e89b-12d3-a456-426614174000"

/-- The account ada sends a patch without username. -/
def opAdaBlank : Op := ⟨.update, fixedEnv, mkRequest "POST" bearerAda "1,Ada,Lovelace,,"⟩

/-- The account alan sends a patch without username. -/
def opAlanBlank : Op := ⟨.update, fixedEnv, mkRequest "POST" bearerAlan "2,Alan,Turing,,"⟩

/-- The store after two registrations and a patch without username from each
account. -/
def blankStore : Redis :=
  opAlanBlank.run fieldJson (opAdaBlank.run fieldJson
    (opRegisterAlan.run fieldJson (opRegisterAda.run fieldJson Redis.empty)))

/-- The store of the two friends in which the record of account 2 no longer
parses. -/
def malformedStore : Redis := friendsStore.Set "user:2" "garbage"

/-- The store of the two friends in which account 1 has a further friend 5
without a record. -/
def absentFriendStore : Redis := friendsStore.ZAdd "friends:1" 1700000100 "5"

/-- The store after two registrations and the friend request of account 2 to
account 1. -/
def requestedStore : Redis :=
  opSendToAda.run fieldJson (opRegisterAlan.run fieldJson
    (opRegisterAda.run fieldJson Redis.empty))

/-- The store that account 1 leaves when it accepts the request of account 2
and the write into the friend set of account 2 returns an error. -/
def oneSidedStore : Redis :=
  (AcceptRejectWithErrors ⟨false, false, true, false⟩ fieldJson fixedEnv requestedStore
    (mkRequest "POST" bearerAda "2,accept")).1

/-- The store that account 1 leaves when it accepts the request of account 2
and only the removal of the pending entry returns an error. -/
def unremovedStore : Redis :=
  (AcceptRejectWithErrors ⟨false, false, false, true⟩ fieldJson fixedEnv requestedStore
    (mkRequest "POST" bearerAda "2,accept")).1

/-! # Theorems -/

/-! ## Facts about strconv -/

theorem isDigit_digitChar (d : Nat) (h : d < 10) : isDigit (digitChar d) = true := by
  interval_cases d <;> decide

theorem toNat_digitChar (d : Nat) (h : d < 10) : (digitChar d).toNat - 48 = d := by
  interval_cases d <;> decide

theorem parseDigitsFrom_formatUintAux (fuel : Nat) :
    ∀ (n : Nat) (acc : List Char), n < fuel →
      parseDigitsFrom 0 (formatUintAux fuel n acc) = parseDigitsFrom n acc := by
  induction fuel with
  | zero => intro n acc h; omega
  | succ fuel ih =>
    intro n acc h
    unfold formatUintAux
    by_cases h10 : n < 10
    · simp [h10, parseDigitsFrom, isDigit_digitChar n h10, toNat_digitChar n h10]
    · simp only [h10, if_false]
      rw [ih (n / 10) _ (by omega)]
      have hm : n % 10 < 10 := Nat.mod_lt _ (by decide)
      simp only [parseDigitsFrom, isDigit_digitChar _ hm, toNat_digitChar _ hm, if_true]
      congr 1
      omega

theorem parseDigitsFrom_formatUint (n : Nat) : parseDigitsFrom 0 (formatUint n) = some n := by
  unfold formatUint
  rw [parseDigitsFrom_formatUintAux (n + 1) n [] (by omega)]
  rfl

theorem length_le_formatUintAux (fuel : Nat) :
    ∀ (n : Nat) (acc : List Char), acc.length ≤ (formatUintAux fuel n acc).length := by
  induction fuel with
  | zero => intro n acc; simp [formatUintAux]
  | succ fuel ih =>
    intro n acc
    unfold formatUintAux
    split
    · simp
    · exact le_trans (by simp) (ih (n / 10) (digitChar (n % 10) :: acc))

theorem formatUint_eq_cons (n : Nat) :
    ∃ c cs, formatUint n = c :: cs ∧ isDigit c = true := by
  have h := parseDigitsFrom_formatUint n
  cases hl : formatUint n with
  | nil =>
    have hlen : 1 ≤ (formatUint n).length := by
      unfold formatUint formatUintAux
      split
      · simp
      · exact le_trans (by simp) (length_le_formatUintAux n (n / 10) [digitChar (n % 10)])
    rw [hl] at hlen
    simp at hlen
  | cons c cs =>
    refine ⟨c, cs, rfl, ?_⟩
    rw [hl] at h
    unfold parseDigitsFrom at h
    by_cases hc : isDigit c = true
    · exact hc
    · simp [hc] at h

theorem parseInt_Itoa (i : Int) : parseInt (Itoa i) = some i := by
  obtain ⟨c, cs, hcs, hc⟩ := formatUint_eq_cons i.natAbs
  have hp : parseDigits (formatUint i.natAbs) = some i.natAbs := by
    have h := parseDigitsFrom_formatUint i.natAbs
    rw [hcs] at h ⊢
    exact h
  unfold Itoa
  by_cases hneg : i < 0
  · have hi : -((i.natAbs : Nat) : Int) = i := by omega
    simp only [hneg, if_true, parseInt, hp, Option.map_some', hi]
  · simp only [hneg, if_false, parseInt, hcs]
    have h1 : c ≠ '-' := by
      intro hEq
      rw [hEq] at hc
      exact absurd hc (by decide)
    have h2 : c ≠ '+' := by
      intro hEq
      rw [hEq] at hc
      exact absurd hc (by decide)
    simp only [h1, h2, if_false]
    rw [← hcs, hp]
    have hi : ((i.natAbs : Nat) : Int) = i := by omega
    simp only [Option.map_some', hi]

theorem Atoi_Itoa (i : Int) (h : inInt64 i) : Atoi (Itoa i) = some i := by
  simp [Atoi, parseInt_Itoa, h]

theorem Itoa_injective : Function.Injective Itoa := by
  intro a b hab
  have ha := parseInt_Itoa a
  rw [hab, parseInt_Itoa] at ha
  exact (Option.some.inj ha).symm

theorem Itoa_ne_empty (i : Int) : Itoa i ≠ "" := by
  intro h
  have hp := parseInt_Itoa i
  rw [h] at hp
  simp [parseInt] at hp

/-! ## Facts about keys -/

theorem key_cancel (p a b : String) (h : p ++ a = p ++ b) : a = b := by
  have hd := congrArg String.data h
  simp only [String.data_append] at hd
  exact String.ext (List.append_cancel_left hd)

theorem friends_ne_friendrequest (a b : String) :
    FriendPrefix ++ a ≠ FriendRequestPrefix ++ b := by
  intro h
  have hd := congrArg String.data h
  simp [String.data_append] at hd

theorem friends_ne_leaderboard (a : String) : FriendPrefix ++ a ≠ Leaderboard := by
  intro h
  have hd := congrArg String.data h
  simp [String.data_append] at hd

theorem friendrequest_ne_leaderboard (a : String) :
    FriendRequestPrefix ++ a ≠ Leaderboard := by
  intro h
  have hd := congrArg String.data h
  simp [String.data_append] at hd

/-! ## Facts about sorted sets -/

theorem mem_add (z : ZSet) (score : Int) (m : String) (e : String × Int) :
    e ∈ z.add score m ↔ e = (m, score) ∨ (e ∈ z ∧ e.1 ≠ m) := by
  simp [ZSet.add, ZSet.remove, List.mem_orderedInsert, List.mem_filter]

theorem mem_members_add (z : ZSet) (score : Int) (m x : String) :
    x ∈ (z.add score m).members ↔ x = m ∨ x ∈ z.members := by
  simp only [ZSet.members, List.mem_map, mem_add]
  constructor
  · rintro ⟨e, he | ⟨he, _⟩, rfl⟩
    · left; rw [he]
    · right; exact ⟨e, he, rfl⟩
  · rintro (rfl | ⟨e, he, rfl⟩)
    · exact ⟨(x, score), Or.inl rfl, rfl⟩
    · by_cases hm : e.1 = m
      · exact ⟨(m, score), Or.inl rfl, hm.symm⟩
      · exact ⟨e, Or.inr ⟨he, hm⟩, rfl⟩

theorem mem_members_remove (z : ZSet) (m x : String) :
    x ∈ (z.remove m).members ↔ x ∈ z.members ∧ x ≠ m := by
  simp only [ZSet.members, ZSet.remove, List.mem_map, List.mem_filter]
  constructor
  · rintro ⟨e, ⟨he, hne⟩, rfl⟩
    exact ⟨⟨e, he, rfl⟩, by simpa using hne⟩
  · rintro ⟨⟨e, he, rfl⟩, hne⟩
    exact ⟨e, ⟨he, by simpa using hne⟩, rfl⟩

theorem filter_orderedInsert_same (m : String) (score : Int) (l : ZSet)
    (hl : ∀ e ∈ l, e.1 ≠ m) :
    (List.orderedInsert zle (m, score) l).filter (fun e => decide (e.1 = m)) = [(m, score)] := by
  induction l with
  | nil => simp
  | cons a l ih =>
    have ha : a.1 ≠ m := hl a (List.mem_cons_self _ _)
    have hl2 : ∀ e ∈ l, e.1 ≠ m := fun e he => hl e (List.mem_cons_of_mem _ he)
    have hfil : List.filter (fun e => decide (e.1 = m)) l = [] := by
      rw [List.filter_eq_nil_iff]
      intro e he
      simpa using hl2 e he
    simp only [List.orderedInsert]
    split
    · simp [List.filter_cons, ha, hfil]
    · simp [List.filter_cons, ha, ih hl2]

theorem filter_orderedInsert_other (m x : String) (score : Int) (hx : x ≠ m) (l : ZSet) :
    (List.orderedInsert zle (m, score) l).filter (fun e => decide (e.1 = x)) =
      l.filter (fun e => decide (e.1 = x)) := by
  induction l with
  | nil => simp [List.filter_cons, Ne.symm hx]
  | cons a l ih =>
    simp only [List.orderedInsert]
    split
    · simp [List.filter_cons, Ne.symm hx]
    · simp only [List.filter_cons, ih]

theorem filter_add_same (z : ZSet) (score : Int) (m : String) :
    (z.add score m).filter (fun e => decide (e.1 = m)) = [(m, score)] := by
  unfold ZSet.add
  apply filter_orderedInsert_same
  intro e he
  have h := (List.mem_filter.mp he).2
  simpa using h

theorem score_eq_filter (z : ZSet) (x : String) :
    z.score x = ((z.filter fun e => decide (e.1 = x)).head?).map Prod.snd := by
  unfold ZSet.score
  congr 1
  induction z with
  | nil => rfl
  | cons a l ih =>
    by_cases h : a.1 = x
    · simp only [List.find?_cons, List.filter_cons, h, decide_True, if_true, List.head?_cons]
    · simp only [List.find?_cons, List.filter_cons, h, decide_False]
      simp

theorem score_add_same (z : ZSet) (score : Int) (m : String) :
    (z.add score m).score m = some score := by
  rw [score_eq_filter, filter_add_same]
  rfl

theorem score_add_other (z : ZSet) (score : Int) (m x : String) (hx : x ≠ m) :
    (z.add score m).score x = z.score x := by
  rw [score_eq_filter, score_eq_filter]
  unfold ZSet.add
  rw [filter_orderedInsert_other m x score hx]
  congr 2
  unfold ZSet.remove
  rw [List.filter_filter]
  congr 1
  funext e
  by_cases h : e.1 = x
  · simp [h, hx]
  · simp [h]

theorem rangeSlice_all {α : Type} (l : List α) : rangeSlice l 0 (-1) = l := by
  unfold rangeSlice
  cases l with
  | nil => simp
  | cons a l =>
    have h1 : ¬ ((0 : Int) > ((a :: l).length : Int) + -1 ∨ (0 : Int) ≥ ((a :: l).length : Int)) := by
      simp only [List.length_cons]; push_cast; omega
    have h2 : (((a :: l).length : Int) + -1 - 0 + 1).toNat = (a :: l).length := by
      simp only [List.length_cons]; push_cast; omega
    simp [h1, h2]

/-! ## Facts about the store -/

theorem ZScore_ZAdd_same (rdb : Redis) (key : String) (score : Int) (m : String) :
    (rdb.ZAdd key score m).ZScore key m = some score := by
  simp [Redis.ZScore, Redis.ZAdd, score_add_same]

theorem ZScore_ZAdd_other (rdb : Redis) (key : String) (score : Int) (m x : String)
    (hx : x ≠ m) : (rdb.ZAdd key score m).ZScore key x = rdb.ZScore key x := by
  simp [Redis.ZScore, Redis.ZAdd, score_add_other _ _ _ _ hx]

theorem cumulative_addScore_same (rdb : Redis) (m : String) (d : Int) :
    (addScoreToUser rdb m d).ZScore Leaderboard m = some (cumulative rdb m + d) := by
  unfold addScoreToUser Redis.ZIncrBy
  rw [ZScore_ZAdd_same]
  rfl

theorem cumulative_addScore_other (rdb : Redis) (m x : String) (d : Int) (hx : x ≠ m) :
    (addScoreToUser rdb m d).ZScore Leaderboard x = rdb.ZScore Leaderboard x := by
  unfold addScoreToUser Redis.ZIncrBy
  rw [ZScore_ZAdd_other _ _ _ _ _ hx]

theorem matchResult_store (J : Json) (env : Env) (rdb : Redis) (r : Request) (m : MatchData)
    (hmethod : r.method = "POST") (hbody : J.decodeMatchData r.body = .ok m) :
    (MatchResultHandler J env rdb r).1 =
      addScoreToUser (addScoreToUser rdb (Itoa m.UserID1) (matchPoints m.Score1 m.Score2).1)
        (Itoa m.UserID2) (matchPoints m.Score1 m.Score2).2 := by
  unfold MatchResultHandler
  simp only [hmethod, hbody, ne_eq, not_true_eq_false, if_false]
  split
  · rfl
  · split <;> rfl

theorem cumulative_matchResult (J : Json) (env : Env) (rdb : Redis) (r : Request)
    (m : MatchData) (hmethod : r.method = "POST") (hbody : J.decodeMatchData r.body = .ok m)
    (x : String) :
    cumulative (MatchResultHandler J env rdb r).1 x = cumulative rdb x + awarded m x := by
  rw [matchResult_store J env rdb r m hmethod hbody]
  unfold awarded
  generalize (matchPoints m.Score1 m.Score2).1 = p1
  generalize (matchPoints m.Score1 m.Score2).2 = p2
  by_cases h2 : Itoa m.UserID2 = x
  · subst h2
    unfold cumulative
    rw [cumulative_addScore_same]
    by_cases h1 : Itoa m.UserID1 = Itoa m.UserID2
    · rw [h1]
      unfold cumulative
      rw [cumulative_addScore_same]
      simp [cumulative]
      ring
    · have h1b : Itoa m.UserID2 ≠ Itoa m.UserID1 := fun h => h1 h.symm
      unfold cumulative
      rw [cumulative_addScore_other _ _ _ _ h1b]
      simp [h1]
  · have h2b : x ≠ Itoa m.UserID2 := fun h => h2 h.symm
    unfold cumulative
    rw [cumulative_addScore_other _ _ _ _ h2b]
    by_cases h1 : Itoa m.UserID1 = x
    · subst h1
      rw [cumulative_addScore_same]
      simp [cumulative, h2]
    · have h1b : x ≠ Itoa m.UserID1 := fun h => h1 h.symm
      rw [cumulative_addScore_other _ _ _ _ h1b]
      simp [h1, h2]

/-! ## Match settlement -/

/-- C1: a match-result request with a well-formed body awards (3, 0) when
score1 > score2, (0, 3) when score1 < score2 and (1, 1) on a tie, whatever the
store, the participants and the rest of the request are, and the store it leaves
is the given store after exactly two score increments on the leaderboard: the
first on participant 1, the second on participant 2. -/
theorem matchResult_awards_by_scores (J : Json) (env : Env) (rdb : Redis) (r : Request)
    (m : MatchData) (hmethod : r.method = "POST")
    (hbody : J.decodeMatchData r.body = .ok m) :
    (m.Score1 > m.Score2 →
      (MatchResultHandler J env rdb r).1 =
        (rdb.ZIncrBy Leaderboard 3 (Itoa m.UserID1)).ZIncrBy Leaderboard 0 (Itoa m.UserID2)) ∧
    (m.Score1 < m.Score2 →
      (MatchResultHandler J env rdb r).1 =
        (rdb.ZIncrBy Leaderboard 0 (Itoa m.UserID1)).ZIncrBy Leaderboard 3 (Itoa m.UserID2)) ∧
    (m.Score1 = m.Score2 →
      (MatchResultHandler J env rdb r).1 =
        (rdb.ZIncrBy Leaderboard 1 (Itoa m.UserID1)).ZIncrBy Leaderboard 1 (Itoa m.UserID2)) := by
  rw [matchResult_store J env rdb r m hmethod hbody]
  unfold matchPoints addScoreToUser
  refine ⟨fun h => ?_, fun h => ?_, fun h => ?_⟩
  · simp [h]
  · have h2 : ¬ m.Score1 > m.Score2 := by omega
    simp [h, h2]
  · simp [h]

/-- Instance of C1: participant 1 beats participant 2 by 3 to 1 on the empty
store. -/
theorem matchResult_awards_by_scores_witness :
    (mkRequest "POST" "" "1,2,3,1").method = "POST" ∧
    fieldJson.decodeMatchData (mkRequest "POST" "" "1,2,3,1").body = .ok ⟨1, 2, 3, 1⟩ ∧
    (MatchResultHandler fieldJson fixedEnv Redis.empty (mkRequest "POST" "" "1,2,3,1")).1 =
      (Redis.empty.ZIncrBy Leaderboard 3 (Itoa 1)).ZIncrBy Leaderboard 0 (Itoa 2) :=
  ⟨rfl, rfl,
    (matchResult_awards_by_scores fieldJson fixedEnv Redis.empty
      (mkRequest "POST" "" "1,2,3,1") ⟨1, 2, 3, 1⟩ rfl rfl).1 (by decide)⟩

/-- C2: settling a match between two distinct accounts raises the cumulative
score of the strict winner by exactly 3 and that of the loser by exactly 0, and
a tie raises both by exactly 1; the entry exists afterwards, so an account
without an entry gets one with the awarded value.  After a sequence of settled
matches every cumulative score is the one before plus the sum of the points
awarded to that account. -/
theorem settlement_adds_to_cumulative (J : Json) (env : Env) (rdb : Redis) (r : Request)
    (m : MatchData) (rs : List Request) (ms : List MatchData)
    (hmethod : r.method = "POST") (hbody : J.decodeMatchData r.body = .ok m)
    (hdistinct : m.UserID1 ≠ m.UserID2)
    (hall : List.Forall₂ (fun q n => q.method = "POST" ∧ J.decodeMatchData q.body = .ok n) rs ms) :
    (m.Score1 > m.Score2 →
      (MatchResultHandler J env rdb r).1.ZScore Leaderboard (Itoa m.UserID1) =
          some (cumulative rdb (Itoa m.UserID1) + 3) ∧
        (MatchResultHandler J env rdb r).1.ZScore Leaderboard (Itoa m.UserID2) =
          some (cumulative rdb (Itoa m.UserID2) + 0)) ∧
    (m.Score1 < m.Score2 →
      (MatchResultHandler J env rdb r).1.ZScore Leaderboard (Itoa m.UserID1) =
          some (cumulative rdb (Itoa m.UserID1) + 0) ∧
        (MatchResultHandler J env rdb r).1.ZScore Leaderboard (Itoa m.UserID2) =
          some (cumulative rdb (Itoa m.UserID2) + 3)) ∧
    (m.Score1 = m.Score2 →
      (MatchResultHandler J env rdb r).1.ZScore Leaderboard (Itoa m.UserID1) =
          some (cumulative rdb (Itoa m.UserID1) + 1) ∧
        (MatchResultHandler J env rdb r).1.ZScore Leaderboard (Itoa m.UserID2) =
          some (cumulative rdb (Itoa m.UserID2) + 1)) ∧
    (∀ x : String,
      cumulative (settleAll J env rdb rs) x = cumulative rdb x + (ms.map fun n => awarded n x).sum) := by
  have hne : Itoa m.UserID1 ≠ Itoa m.UserID2 := fun h => hdistinct (Itoa_injective h)
  have hstore := matchResult_store J env rdb r m hmethod hbody
  have h1 : ∀ p1 p2 : Int,
      (addScoreToUser (addScoreToUser rdb (Itoa m.UserID1) p1) (Itoa m.UserID2) p2).ZScore
          Leaderboard (Itoa m.UserID1) = some (cumulative rdb (Itoa m.UserID1) + p1) := by
    intro p1 p2
    rw [cumulative_addScore_other _ _ _ _ hne, cumulative_addScore_same]
  have h2 : ∀ p1 p2 : Int,
      (addScoreToUser (addScoreToUser rdb (Itoa m.UserID1) p1) (Itoa m.UserID2) p2).ZScore
          Leaderboard (Itoa m.UserID2) = some (cumulative rdb (Itoa m.UserID2) + p2) := by
    intro p1 p2
    rw [cumulative_addScore_same]
    unfold cumulative
    rw [cumulative_addScore_other _ _ _ _ (Ne.symm hne)]
  refine ⟨fun h => ?_, fun h => ?_, fun h => ?_, ?_⟩
  · have hp : matchPoints m.Score1 m.Score2 = (3, 0) := by simp [matchPoints, h]
    rw [hstore, hp]
    exact ⟨h1 3 0, h2 3 0⟩
  · have hgt : ¬ m.Score1 > m.Score2 := by omega
    have hp : matchPoints m.Score1 m.Score2 = (0, 3) := by simp [matchPoints, h, hgt]
    rw [hstore, hp]
    exact ⟨h1 0 3, h2 0 3⟩
  · have hp : matchPoints m.Score1 m.Score2 = (1, 1) := by simp [matchPoints, h]
    rw [hstore, hp]
    exact ⟨h1 1 1, h2 1 1⟩
  · intro x
    clear hstore h1 h2 hne hdistinct hbody hmethod
    induction hall generalizing rdb with
    | nil => simp [settleAll]
    | @cons q n qs ns hq _ ih =>
      have hstep := cumulative_matchResult J env rdb q n hq.1 hq.2 x
      have hrec := ih (MatchResultHandler J env rdb q).1
      simp only [settleAll, List.foldl_cons, List.map_cons, List.sum_cons] at hrec ⊢
      rw [hrec, hstep]
      ring

/-- Instance of C2: a 3-1 result between accounts 1 and 2, then the same result
again followed by a 2-2 tie, on the empty store. -/
theorem settlement_adds_to_cumulative_witness :
    (mkRequest "POST" "" "1,2,3,1").method = "POST" ∧
    fieldJson.decodeMatchData (mkRequest "POST" "" "1,2,3,1").body = .ok ⟨1, 2, 3, 1⟩ ∧
    (1 : Int) ≠ 2 ∧
    List.Forall₂ (fun q n => q.method = "POST" ∧ fieldJson.decodeMatchData q.body = .ok n)
      [mkRequest "POST" "" "1,2,3,1", mkRequest "POST" "" "1,2,2,2"]
      [⟨1, 2, 3, 1⟩, ⟨1, 2, 2, 2⟩] ∧
    (MatchResultHandler fieldJson fixedEnv Redis.empty
        (mkRequest "POST" "" "1,2,3,1")).1.ZScore Leaderboard (Itoa 1) =
      some (cumulative Redis.empty (Itoa 1) + 3) ∧
    cumulative (settleAll fieldJson fixedEnv Redis.empty
        [mkRequest "POST" "" "1,2,3,1", mkRequest "POST" "" "1,2,2,2"]) "2" =
      cumulative Redis.empty "2" +
        (([⟨1, 2, 3, 1⟩, ⟨1, 2, 2, 2⟩] : List MatchData).map fun n => awarded n "2").sum :=
  have hall : List.Forall₂
      (fun q n => q.method = "POST" ∧ fieldJson.decodeMatchData q.body = .ok n)
      [mkRequest "POST" "" "1,2,3,1", mkRequest "POST" "" "1,2,2,2"]
      [⟨1, 2, 3, 1⟩, ⟨1, 2, 2, 2⟩] :=
    List.Forall₂.cons ⟨rfl, rfl⟩ (List.Forall₂.cons ⟨rfl, rfl⟩ List.Forall₂.nil)
  have h := settlement_adds_to_cumulative fieldJson fixedEnv Redis.empty
    (mkRequest "POST" "" "1,2,3,1") ⟨1, 2, 3, 1⟩
    [mkRequest "POST" "" "1,2,3,1", mkRequest "POST" "" "1,2,2,2"]
    [⟨1, 2, 3, 1⟩, ⟨1, 2, 2, 2⟩] rfl rfl (by decide) hall
  ⟨rfl, rfl, by decide, hall, (h.1 (by decide)).1, h.2.2.2 "2"⟩

/-! ## Facts about the friendship handlers -/

theorem zsets_ZAdd (rdb : Redis) (key : String) (score : Int) (m k : String) :
    (rdb.ZAdd key score m).zsets k =
      if k = key then (rdb.zsets key).add score m else rdb.zsets k := by
  unfold Redis.ZAdd
  by_cases h : k = key
  · subst h; simp
  · simp [h]

theorem zsets_ZRem (rdb : Redis) (key m k : String) :
    (rdb.ZRem key m).zsets k =
      if k = key then (rdb.zsets key).remove m else rdb.zsets k := by
  unfold Redis.ZRem
  by_cases h : k = key
  · subst h; simp
  · simp [h]

theorem GetUserIDFromToken_congr (rdb1 rdb2 : Redis) (r : Request)
    (h : rdb1.strs = rdb2.strs) : GetUserIDFromToken rdb1 r = GetUserIDFromToken rdb2 r := by
  unfold GetUserIDFromToken Redis.Get
  rw [h]

theorem ZRange_all (rdb : Redis) (key : String) :
    rdb.ZRange key 0 (-1) = (rdb.zsets key).members := by
  unfold Redis.ZRange
  exact rangeSlice_all _

theorem respond_found (J : Json) (env : Env) (rdb : Redis) (r : Request) (B : Int)
    (q : AcceptFriendRequest) (hauth : GetUserIDFromToken rdb r = .ok B)
    (hbody : J.decodeAcceptFriendRequest r.body = .ok q)
    (hpending : q.RequesterID ∈ pending rdb (Itoa B)) :
    AcceptRejectFriendRequestHandler J env rdb r =
      if q.Status = "accept" then
        ((((rdb.ZAdd (FriendPrefix ++ Itoa B) (env.now 0) q.RequesterID).ZAdd
          (FriendPrefix ++ q.RequesterID) (env.now 1) (Itoa B)).ZRem
          (FriendRequestPrefix ++ Itoa B) q.RequesterID), processed)
      else if q.Status = "reject" then
        (rdb.ZRem (FriendRequestPrefix ++ Itoa B) q.RequesterID, processed)
      else (rdb, .error "Invalid status" 400) := by
  unfold AcceptRejectFriendRequestHandler
  simp only [hauth, hbody, ZRange_all]
  have hfound : ((rdb.zsets (FriendRequestPrefix ++ Itoa B)).members.any fun requesterID =>
      decide (requesterID = q.RequesterID)) = true := by
    rw [List.any_eq_true]
    exact ⟨q.RequesterID, hpending, by simp⟩
  by_cases ha : q.Status = "accept"
  · simp [ha, hfound, processed]
  · by_cases hr : q.Status = "reject"
    · simp [hr, hfound, processed]
    · simp [ha, hr]

theorem respond_not_found (J : Json) (env : Env) (rdb : Redis) (r : Request) (B : Int)
    (q : AcceptFriendRequest) (hauth : GetUserIDFromToken rdb r = .ok B)
    (hbody : J.decodeAcceptFriendRequest r.body = .ok q)
    (hstatus : q.Status = "accept" ∨ q.Status = "reject")
    (hpending : q.RequesterID ∉ pending rdb (Itoa B)) :
    AcceptRejectFriendRequestHandler J env rdb r =
      (rdb, .error "Friend request not found" 404) := by
  unfold AcceptRejectFriendRequestHandler
  simp only [hauth, hbody, ZRange_all]
  have hfound : ((rdb.zsets (FriendRequestPrefix ++ Itoa B)).members.any fun requesterID =>
      decide (requesterID = q.RequesterID)) = false := by
    rw [List.any_eq_false]
    intro x hx
    have : x ≠ q.RequesterID := fun h => hpending (h ▸ hx)
    simpa using this
  have hs : ¬ (q.Status ≠ "accept" ∧ q.Status ≠ "reject") := by
    rcases hstatus with h | h <;> simp [h]
  simp [hs, hfound]

/-! ## Responding to a friend request -/

/-- C3: when A is pending for B, respond(B, A, accept) succeeds and leaves B in
the friend set of A, A in the friend set of B and A out of the pending set of
B; the same request sent again straight afterwards gets the not-found response
(404) and leaves the store as it is. -/
theorem accept_makes_mutual_friends (J : Json) (env env2 : Env) (rdb : Redis) (r : Request)
    (B : Int) (A : String)
    (hauth : GetUserIDFromToken rdb r = .ok B)
    (hbody : J.decodeAcceptFriendRequest r.body = .ok ⟨A, "accept"⟩)
    (hpending : A ∈ pending rdb (Itoa B)) :
    (AcceptRejectFriendRequestHandler J env rdb r).2 = processed ∧
    Itoa B ∈ friendsOf (AcceptRejectFriendRequestHandler J env rdb r).1 A ∧
    A ∈ friendsOf (AcceptRejectFriendRequestHandler J env rdb r).1 (Itoa B) ∧
    A ∉ pending (AcceptRejectFriendRequestHandler J env rdb r).1 (Itoa B) ∧
    AcceptRejectFriendRequestHandler J env2 (AcceptRejectFriendRequestHandler J env rdb r).1 r =
      ((AcceptRejectFriendRequestHandler J env rdb r).1,
        .error "Friend request not found" 404) := by
  have hrun := respond_found J env rdb r B ⟨A, "accept"⟩ hauth hbody hpending
  simp only [if_true] at hrun
  have hnot : A ∉ pending (AcceptRejectFriendRequestHandler J env rdb r).1 (Itoa B) := by
    rw [hrun]
    simp [pending, zsets_ZRem, mem_members_remove]
  refine ⟨by rw [hrun], ?_, ?_, hnot, ?_⟩
  · rw [hrun]
    simp only [friendsOf, zsets_ZRem, zsets_ZAdd, friends_ne_friendrequest, if_false, if_true]
    exact (mem_members_add _ _ _ _).mpr (Or.inl rfl)
  · rw [hrun]
    simp only [friendsOf, zsets_ZRem, zsets_ZAdd, friends_ne_friendrequest, if_false, if_true]
    by_cases hk : FriendPrefix ++ Itoa B = FriendPrefix ++ A
    · have hA : Itoa B = A := key_cancel _ _ _ hk
      simp only [hk, if_true]
      exact (mem_members_add _ _ _ _).mpr (Or.inl hA.symm)
    · simp only [hk, if_false]
      exact (mem_members_add _ _ _ _).mpr (Or.inl rfl)
  · apply respond_not_found J env2 _ r B ⟨A, "accept"⟩ _ hbody (Or.inl rfl) hnot
    rw [← hauth]
    apply GetUserIDFromToken_congr
    rw [hrun]
    rfl

/-- C6: when A is pending for B, respond(B, A, reject) succeeds, removes A from
the pending set of B, keeps every other entry of that set with its timestamp
and in its order, and changes nothing else: every friend set, every other
pending set, the leaderboard and all string keys are as before. -/
theorem reject_only_removes_request (J : Json) (env : Env) (rdb : Redis) (r : Request)
    (B : Int) (A : String)
    (hauth : GetUserIDFromToken rdb r = .ok B)
    (hbody : J.decodeAcceptFriendRequest r.body = .ok ⟨A, "reject"⟩)
    (hpending : A ∈ pending rdb (Itoa B)) :
    (AcceptRejectFriendRequestHandler J env rdb r).2 = processed ∧
    A ∉ pending (AcceptRejectFriendRequestHandler J env rdb r).1 (Itoa B) ∧
    (AcceptRejectFriendRequestHandler J env rdb r).1.zsets (FriendRequestPrefix ++ Itoa B) =
      (rdb.zsets (FriendRequestPrefix ++ Itoa B)).filter (fun e => decide (e.1 ≠ A)) ∧
    (∀ x : String,
      (AcceptRejectFriendRequestHandler J env rdb r).1.zsets (FriendPrefix ++ x) =
        rdb.zsets (FriendPrefix ++ x)) ∧
    (∀ key : String, key ≠ FriendRequestPrefix ++ Itoa B →
      (AcceptRejectFriendRequestHandler J env rdb r).1.zsets key = rdb.zsets key) ∧
    (AcceptRejectFriendRequestHandler J env rdb r).1.strs = rdb.strs := by
  have hrun := respond_found J env rdb r B ⟨A, "reject"⟩ hauth hbody hpending
  have hna : ¬ ("reject" = "accept") := by decide
  simp only [hna, if_false, if_true] at hrun
  rw [hrun]
  refine ⟨rfl, ?_, ?_, ?_, ?_, rfl⟩
  · simp [pending, zsets_ZRem, mem_members_remove]
  · simp [zsets_ZRem, ZSet.remove]
  · intro x
    simp [zsets_ZRem, friends_ne_friendrequest]
  · intro key hkey
    simp [zsets_ZRem, hkey]

/-- Instance of C3: account 7 accepts the pending request of account 3. -/
theorem accept_makes_mutual_friends_witness :
    GetUserIDFromToken sampleStore (mkRequest "POST" bearer7 "3,accept") = .ok 7 ∧
    fieldJson.decodeAcceptFriendRequest (mkRequest "POST" bearer7 "3,accept").body =
      .ok ⟨"3", "accept"⟩ ∧
    "3" ∈ pending sampleStore (Itoa 7) ∧
    (AcceptRejectFriendRequestHandler fieldJson fixedEnv sampleStore
      (mkRequest "POST" bearer7 "3,accept")).2 = processed ∧
    Itoa 7 ∈ friendsOf (AcceptRejectFriendRequestHandler fieldJson fixedEnv sampleStore
      (mkRequest "POST" bearer7 "3,accept")).1 "3" ∧
    "3" ∈ friendsOf (AcceptRejectFriendRequestHandler fieldJson fixedEnv sampleStore
      (mkRequest "POST" bearer7 "3,accept")).1 (Itoa 7) ∧
    "3" ∉ pending (AcceptRejectFriendRequestHandler fieldJson fixedEnv sampleStore
      (mkRequest "POST" bearer7 "3,accept")).1 (Itoa 7) ∧
    AcceptRejectFriendRequestHandler fieldJson fixedEnv
        (AcceptRejectFriendRequestHandler fieldJson fixedEnv sampleStore
          (mkRequest "POST" bearer7 "3,accept")).1 (mkRequest "POST" bearer7 "3,accept") =
      ((AcceptRejectFriendRequestHandler fieldJson fixedEnv sampleStore
          (mkRequest "POST" bearer7 "3,accept")).1, .error "Friend request not found" 404) :=
  ⟨by decide, by decide, by decide,
    accept_makes_mutual_friends fieldJson fixedEnv fixedEnv sampleStore
      (mkRequest "POST" bearer7 "3,accept") 7 "3" (by decide) (by decide) (by decide)⟩

/-- Instance of C6: account 7 rejects the pending request of account 3. -/
theorem reject_only_removes_request_witness :
    GetUserIDFromToken sampleStore (mkRequest "POST" bearer7 "3,reject") = .ok 7 ∧
    fieldJson.decodeAcceptFriendRequest (mkRequest "POST" bearer7 "3,reject").body =
      .ok ⟨"3", "reject"⟩ ∧
    "3" ∈ pending sampleStore (Itoa 7) ∧
    (AcceptRejectFriendRequestHandler fieldJson fixedEnv sampleStore
      (mkRequest "POST" bearer7 "3,reject")).2 = processed ∧
    "3" ∉ pending (AcceptRejectFriendRequestHandler fieldJson fixedEnv sampleStore
      (mkRequest "POST" bearer7 "3,reject")).1 (Itoa 7) ∧
    (∀ x : String,
      (AcceptRejectFriendRequestHandler fieldJson fixedEnv sampleStore
        (mkRequest "POST" bearer7 "3,reject")).1.zsets (FriendPrefix ++ x) =
        sampleStore.zsets (FriendPrefix ++ x)) :=
  have h := reject_only_removes_request fieldJson fixedEnv sampleStore
    (mkRequest "POST" bearer7 "3,reject") 7 "3" (by decide) (by decide) (by decide)
  ⟨by decide, by decide, by decide, h.1, h.2.1, h.2.2.2.1⟩

/-! ## Sending a friend request -/

theorem send_store (J : Json) (env : Env) (rdb : Redis) (r : Request) (A : Int)
    (t v : String) (hauth : GetUserIDFromToken rdb r = .ok A)
    (hbody : J.decodeFriendRequest r.body = .ok ⟨t⟩) (hne : Itoa A ≠ t)
    (hexists : rdb.Get (UserPrefix ++ t) = some v) :
    FriendRequestHandler J env rdb r =
      (rdb.ZAdd (FriendRequestPrefix ++ t) (env.now 0) (Itoa A), requestSent) := by
  unfold FriendRequestHandler
  simp [hauth, hbody, hne, hexists, requestSent]

/-- C5: for a requester A and an existing target B other than A, two
successive sends of A to B both succeed, and afterwards the pending set of B
holds exactly one entry for A, whose timestamp is the one taken by the second
call. -/
theorem send_twice_keeps_one_entry (J : Json) (env1 env2 : Env) (rdb : Redis) (r : Request)
    (A : Int) (B v : String)
    (hauth : GetUserIDFromToken rdb r = .ok A)
    (hbody : J.decodeFriendRequest r.body = .ok ⟨B⟩)
    (hne : Itoa A ≠ B)
    (hexists : rdb.Get (UserPrefix ++ B) = some v) :
    (FriendRequestHandler J env1 rdb r).2 = requestSent ∧
    (FriendRequestHandler J env2 (FriendRequestHandler J env1 rdb r).1 r).2 = requestSent ∧
    ((FriendRequestHandler J env2 (FriendRequestHandler J env1 rdb r).1 r).1.zsets
        (FriendRequestPrefix ++ B)).filter (fun e => decide (e.1 = Itoa A)) =
      [(Itoa A, env2.now 0)] ∧
    ((pending (FriendRequestHandler J env2 (FriendRequestHandler J env1 rdb r).1 r).1 B).count
      (Itoa A)) = 1 := by
  have h1 := send_store J env1 rdb r A B v hauth hbody hne hexists
  have hauth2 : GetUserIDFromToken (FriendRequestHandler J env1 rdb r).1 r = .ok A := by
    rw [← hauth]
    apply GetUserIDFromToken_congr
    rw [h1]
    rfl
  have hexists2 : (FriendRequestHandler J env1 rdb r).1.Get (UserPrefix ++ B) = some v := by
    rw [h1]
    exact hexists
  have h2 := send_store J env2 _ r A B v hauth2 hbody hne hexists2
  have hfilter : ((FriendRequestHandler J env2 (FriendRequestHandler J env1 rdb r).1 r).1.zsets
        (FriendRequestPrefix ++ B)).filter (fun e => decide (e.1 = Itoa A)) =
      [(Itoa A, env2.now 0)] := by
    rw [h2]
    simp only [zsets_ZAdd, if_true]
    exact filter_add_same _ _ _
  refine ⟨by rw [h1], by rw [h2], hfilter, ?_⟩
  have hcount : ∀ (z : ZSet) (x : String),
      z.members.count x = (z.filter (fun e => decide (e.1 = x))).length := by
    intro z x
    induction z with
    | nil => rfl
    | cons a l ih =>
      by_cases h : a.1 = x
      · simp [ZSet.members, List.filter_cons, h] at ih ⊢
        exact ih
      · simp [ZSet.members, List.filter_cons, h, List.count_cons] at ih ⊢
        exact ih
  unfold pending
  rw [hcount, hfilter]
  rfl

/-- C7: a send whose target is the own identifier of the authenticated
requester gets the invalid-argument response (400) and leaves the store, and so
every pending-request set, unchanged; nothing is assumed about the account
record of the requester. -/
theorem send_to_self_rejected (J : Json) (env : Env) (rdb : Redis) (r : Request) (A : Int)
    (hauth : GetUserIDFromToken rdb r = .ok A)
    (hbody : J.decodeFriendRequest r.body = .ok ⟨Itoa A⟩) :
    FriendRequestHandler J env rdb r =
      (rdb, .error "Cannot send friend request to oneself." 400) := by
  unfold FriendRequestHandler
  simp [hauth, hbody]

/-- Instance of C5: account 7 sends to account 3 at two different times. -/
theorem send_twice_keeps_one_entry_witness :
    GetUserIDFromToken sampleStore (mkRequest "POST" bearer7 "3") = .ok 7 ∧
    fieldJson.decodeFriendRequest (mkRequest "POST" bearer7 "3").body = .ok ⟨"3"⟩ ∧
    Itoa 7 ≠ "3" ∧
    sampleStore.Get (UserPrefix ++ "3") = some "3,Ada,Lovelace,ada,$2a$14$pw" ∧
    ((FriendRequestHandler fieldJson { fixedEnv with now := fun _ => 1700000500 }
        (FriendRequestHandler fieldJson fixedEnv sampleStore (mkRequest "POST" bearer7 "3")).1
        (mkRequest "POST" bearer7 "3")).1.zsets (FriendRequestPrefix ++ "3")).filter
        (fun e => decide (e.1 = Itoa 7)) = [(Itoa 7, 1700000500)] :=
  ⟨by decide, by decide, by decide, by decide,
    (send_twice_keeps_one_entry fieldJson fixedEnv { fixedEnv with now := fun _ => 1700000500 }
      sampleStore (mkRequest "POST" bearer7 "3") 7 "3" "3,Ada,Lovelace,ada,$2a$14$pw"
      (by decide) (by decide) (by decide) (by decide)).2.2.1⟩

/-- Instance of C7: account 7, which holds a token but has no account record in
this store, sends to itself. -/
theorem send_to_self_rejected_witness :
    GetUserIDFromToken (Redis.empty.Set "token:123e4567-e89b-12d3-a456-426614174000" "7")
      (mkRequest "POST" bearer7 "7") = .ok 7 ∧
    fieldJson.decodeFriendRequest (mkRequest "POST" bearer7 "7").body = .ok ⟨Itoa 7⟩ ∧
    FriendRequestHandler fieldJson fixedEnv
        (Redis.empty.Set "token:123e4567-e89b-12d3-a456-426614174000" "7")
        (mkRequest "POST" bearer7 "7") =
      (Redis.empty.Set "token:123e4567-e89b-12d3-a456-426614174000" "7",
        .error "Cannot send friend request to oneself." 400) :=
  ⟨by decide, by decide,
    send_to_self_rejected fieldJson fixedEnv
      (Redis.empty.Set "token:123e4567-e89b-12d3-a456-426614174000" "7")
      (mkRequest "POST" bearer7 "7") 7 (by decide) (by decide)⟩

/-! ## The friendship invariant -/

theorem Incr_zsets (rdb rdb2 : Redis) (key : String) (id : Int)
    (h : rdb.Incr key = .ok (rdb2, id)) : rdb2.zsets = rdb.zsets := by
  unfold Redis.Incr at h
  split at h
  · injection h with h
    injection h with h1 h2
    rw [← h1]; rfl
  · split at h
    · cases h
    · split at h
      · injection h with h
        injection h with h1 h2
        rw [← h1]; rfl
      · cases h

theorem register_zsets (J : Json) (env : Env) (rdb : Redis) (r : Request) :
    (RegisterHandler J env rdb r).1.zsets = rdb.zsets := by
  unfold RegisterHandler
  cases hd : J.decodeUser r.body with
  | error e => rfl
  | ok u =>
    dsimp only
    by_cases hex : (rdb.Get (UsernamePrefix ++ u.Username)).getD "" ≠ ""
    · rw [if_pos hex]
    · rw [if_neg hex]
      cases hh : passwordToHash env u.Password with
      | none => rfl
      | some hp =>
        dsimp only
        cases hi : rdb.Incr NextUserID with
        | error e => rfl
        | ok p =>
          obtain ⟨rdb2, id⟩ := p
          exact Incr_zsets rdb rdb2 _ id hi

theorem send_store_cases (J : Json) (env : Env) (rdb : Redis) (r : Request) :
    (FriendRequestHandler J env rdb r).1 = rdb ∨
    ∃ (t m : String) (score : Int),
      (FriendRequestHandler J env rdb r).1 = rdb.ZAdd (FriendRequestPrefix ++ t) score m := by
  unfold FriendRequestHandler
  split
  · exact Or.inl rfl
  · split
    · exact Or.inl rfl
    · dsimp only
      split
      · exact Or.inl rfl
      · split
        · exact Or.inl rfl
        · exact Or.inr ⟨_, _, _, rfl⟩

theorem mem_friendsOf_ZAdd (rdb : Redis) (k m x b : String) (score : Int) :
    b ∈ friendsOf (rdb.ZAdd (FriendPrefix ++ k) score m) x ↔
      (x = k ∧ b = m) ∨ b ∈ friendsOf rdb x := by
  unfold friendsOf
  rw [zsets_ZAdd]
  by_cases hx : x = k
  · subst hx
    simp [mem_members_add]
  · have hk : FriendPrefix ++ x ≠ FriendPrefix ++ k := fun h => hx (key_cancel _ _ _ h)
    simp [hk, hx]

theorem friendsOf_ZAdd_request (rdb : Redis) (t m x : String) (score : Int) :
    friendsOf (rdb.ZAdd (FriendRequestPrefix ++ t) score m) x = friendsOf rdb x := by
  unfold friendsOf
  rw [zsets_ZAdd]
  simp [friends_ne_friendrequest]

theorem friendsOf_ZRem_request (rdb : Redis) (t m x : String) :
    friendsOf (rdb.ZRem (FriendRequestPrefix ++ t) m) x = friendsOf rdb x := by
  unfold friendsOf
  rw [zsets_ZRem]
  simp [friends_ne_friendrequest]

theorem AcceptRejectWithErrors_answered (J : Json) :
    AcceptRejectWithErrors ⟨false, false, false, false⟩ J = AcceptRejectFriendRequestHandler J := by
  funext env rdb r
  unfold AcceptRejectWithErrors AcceptRejectFriendRequestHandler processed
  simp only [Bool.false_eq_true, if_false]

theorem respondWithErrors_store_cases (errs : RespondErrors) (J : Json) (env : Env)
    (rdb : Redis) (r : Request) (hsecond : errs.zaddRequester = false) :
    (AcceptRejectWithErrors errs J env rdb r).1 = rdb ∨
    (∃ (u a : String) (n0 n1 : Int),
      (AcceptRejectWithErrors errs J env rdb r).1 =
        (rdb.ZAdd (FriendPrefix ++ u) n0 a).ZAdd (FriendPrefix ++ a) n1 u) ∨
    (∃ (u a : String) (n0 n1 : Int),
      (AcceptRejectWithErrors errs J env rdb r).1 =
        ((rdb.ZAdd (FriendPrefix ++ u) n0 a).ZAdd (FriendPrefix ++ a) n1 u).ZRem
          (FriendRequestPrefix ++ u) a) ∨
    ∃ (u a : String),
      (AcceptRejectWithErrors errs J env rdb r).1 = rdb.ZRem (FriendRequestPrefix ++ u) a := by
  unfold AcceptRejectWithErrors
  cases GetUserIDFromToken rdb r with
  | error e => exact Or.inl rfl
  | ok userID =>
    dsimp only
    cases J.decodeAcceptFriendRequest r.body with
    | error e => exact Or.inl rfl
    | ok request =>
      dsimp only
      rw [hsecond]
      simp only [Bool.false_eq_true, if_false]
      split
      · exact Or.inl rfl
      · split
        · exact Or.inl rfl
        · split
          · exact Or.inl rfl
          · split
            · split
              · exact Or.inl rfl
              · split
                · exact Or.inr (Or.inl ⟨_, _, _, _, rfl⟩)
                · exact Or.inr (Or.inr (Or.inl ⟨_, _, _, _, rfl⟩))
            · split
              · split
                · exact Or.inl rfl
                · exact Or.inr (Or.inr (Or.inr ⟨_, _, rfl⟩))
              · exact Or.inl rfl

theorem mutual_after_both_writes (rdb : Redis) (u a : String) (n0 n1 : Int)
    (h : ∀ A B : String, B ∈ friendsOf rdb A ↔ A ∈ friendsOf rdb B) :
    ∀ A B : String,
      B ∈ friendsOf ((rdb.ZAdd (FriendPrefix ++ u) n0 a).ZAdd (FriendPrefix ++ a) n1 u) A ↔
        A ∈ friendsOf ((rdb.ZAdd (FriendPrefix ++ u) n0 a).ZAdd (FriendPrefix ++ a) n1 u) B := by
  intro A B
  rw [mem_friendsOf_ZAdd, mem_friendsOf_ZAdd, mem_friendsOf_ZAdd, mem_friendsOf_ZAdd, h A B]
  constructor
  · rintro (⟨h1, h2⟩ | ⟨h1, h2⟩ | h3)
    · exact Or.inr (Or.inl ⟨h2, h1⟩)
    · exact Or.inl ⟨h2, h1⟩
    · exact Or.inr (Or.inr h3)
  · rintro (⟨h1, h2⟩ | ⟨h1, h2⟩ | h3)
    · exact Or.inr (Or.inl ⟨h2, h1⟩)
    · exact Or.inl ⟨h2, h1⟩
    · exact Or.inr (Or.inr h3)

/-- C4, amended: in every store reachable from the empty store by register,
send and respond operations (accepting or rejecting, on any requests, with
store commands that may return errors), provided the write into the friend set
of the requester never returns an error, the friend set of A contains B if and
only if the friend set of B contains A. -/
theorem friendship_is_mutual (J : Json) (rdb : Redis)
    (hreach : ReachableWithErrors J (fun errs => errs.zaddRequester = false) rdb) :
    ∀ A B : String, B ∈ friendsOf rdb A ↔ A ∈ friendsOf rdb B := by
  induction hreach with
  | empty => intro A B; simp [friendsOf, Redis.empty, ZSet.members]
  | @register s env r _ ih =>
    intro A B
    have hz := register_zsets J env s r
    simp only [friendsOf, hz]
    exact ih A B
  | @send s env r _ ih =>
    intro A B
    rcases send_store_cases J env s r with h | ⟨t, m, score, h⟩
    · rw [h]; exact ih A B
    · rw [h, friendsOf_ZAdd_request, friendsOf_ZAdd_request]; exact ih A B
  | @respond s errs env r hallowed _ ih =>
    intro A B
    rcases respondWithErrors_store_cases errs J env s r hallowed with
      h | ⟨u, a, n0, n1, h⟩ | ⟨u, a, n0, n1, h⟩ | ⟨u, a, h⟩
    · rw [h]; exact ih A B
    · rw [h]; exact mutual_after_both_writes s u a n0 n1 ih A B
    · rw [h, friendsOf_ZRem_request, friendsOf_ZRem_request]
      exact mutual_after_both_writes s u a n0 n1 ih A B
    · rw [h, friendsOf_ZRem_request, friendsOf_ZRem_request]; exact ih A B

/-- Instance of C4: the store after two registrations, a friend request and its
acceptance in which the removal of the pending entry returns an error; accounts
1 and 2 are friends of each other and the request is still pending. -/
theorem friendship_is_mutual_witness :
    ReachableWithErrors fieldJson (fun errs => errs.zaddRequester = false) unremovedStore ∧
    friendsOf unremovedStore "1" = ["2"] ∧
    friendsOf unremovedStore "2" = ["1"] ∧
    pending unremovedStore "1" = ["2"] ∧
    (∀ A B : String, B ∈ friendsOf unremovedStore A ↔ A ∈ friendsOf unremovedStore B) :=
  have hreach : ReachableWithErrors fieldJson (fun errs => errs.zaddRequester = false)
      unremovedStore :=
    ReachableWithErrors.respond ⟨false, false, false, true⟩ fixedEnv
      (mkRequest "POST" bearerAda "2,accept") rfl
      (ReachableWithErrors.send opSendToAda.env opSendToAda.request
        (ReachableWithErrors.register opRegisterAlan.env opRegisterAlan.request
          (ReachableWithErrors.register opRegisterAda.env opRegisterAda.request
            ReachableWithErrors.empty)))
  ⟨hreach, by decide, by decide, by decide,
    friendship_is_mutual fieldJson unremovedStore hreach⟩

/-- C4 as stated fails: when account 1 accepts the request of account 2 and the
write into the friend set of account 2 returns an error, the handler returns
after the first write (friendship.go 367-370) and the store it leaves, reachable
by register, send and respond operations, has 2 in the friend set of 1 but not
1 in the friend set of 2. -/
theorem friendship_one_sided :
    ReachableWithErrors fieldJson (fun _ => True) oneSidedStore ∧
    ¬ ∀ A B : String, B ∈ friendsOf oneSidedStore A ↔ A ∈ friendsOf oneSidedStore B := by
  constructor
  · exact ReachableWithErrors.respond ⟨false, false, true, false⟩ fixedEnv
      (mkRequest "POST" bearerAda "2,accept") trivial
      (ReachableWithErrors.send opSendToAda.env opSendToAda.request
        (ReachableWithErrors.register opRegisterAlan.env opRegisterAlan.request
          (ReachableWithErrors.register opRegisterAda.env opRegisterAda.request
            ReachableWithErrors.empty)))
  · intro h
    have h2 := (h "1" "2").mp (by decide)
    revert h2
    decide

/-! ## Tokens -/

theorem uuid_head (s : String) (h : isUUIDString s = true) :
    s.data.length = 36 ∧ ∃ c cs, s.data = c :: cs ∧ isHexLower c = true := by
  unfold isUUIDString at h
  simp only [Bool.and_eq_true, decide_eq_true_eq] at h
  refine ⟨h.1, ?_⟩
  cases hd : s.data with
  | nil => rw [hd] at h; simp at h
  | cons c cs =>
    refine ⟨c, cs, rfl, ?_⟩
    have h2 := h.2
    rw [hd] at h2
    unfold uuidCharsFrom at h2
    simp at h2
    exact h2.1

theorem uuid_not_bearer (s : String) (h : isUUIDString s = true) :
    ¬ (s.data.length > 7 ∧ s.data.take 7 = "Bearer ".data) := by
  obtain ⟨_, c, cs, hd, hc⟩ := uuid_head s h
  rintro ⟨_, htake⟩
  rw [hd] at htake
  have hB : c = 'B' := by
    have := congrArg List.head? htake
    simpa using this
  rw [hB] at hc
  exact absurd hc (by decide)

theorem Get_Set_same (rdb : Redis) (key value : String) :
    (rdb.Set key value).Get key = some value := by
  simp [Redis.Get, Redis.Set]

/-- C8: the token that GenerateToken returns for an account id resolves through
GetUserIDFromToken, on the store that GenerateToken leaves, to exactly that id,
both when the Authorization header is the raw token and when it is the token
after the text "Bearer ".  The id is a Go int and the token has the textual
form of a UUID. -/
theorem token_round_trip (env : Env) (rdb : Redis) (userID : Int) (raw bearer : Request)
    (hid : inInt64 userID) (huuid : isUUIDString env.uuid = true)
    (hraw : raw.authorization = (GenerateToken env rdb userID).2)
    (hbearer : bearer.authorization = "Bearer " ++ (GenerateToken env rdb userID).2) :
    GetUserIDFromToken (GenerateToken env rdb userID).1 raw = .ok userID ∧
    GetUserIDFromToken (GenerateToken env rdb userID).1 bearer = .ok userID := by
  obtain ⟨hlen, c, cs, hd, _⟩ := uuid_head env.uuid huuid
  have hnb := uuid_not_bearer env.uuid huuid
  have hne : env.uuid ≠ "" := by
    intro h
    rw [h] at hlen
    simp at hlen
  constructor
  · unfold GetUserIDFromToken
    simp only [hraw, GenerateToken, hne, if_false, hnb, Get_Set_same, Atoi_Itoa userID hid]
  · have hne2 : "Bearer " ++ env.uuid ≠ "" := by
      intro h
      have := congrArg String.data h
      simp [String.data_append] at this
    have hb : ("Bearer " ++ env.uuid).data.length > 7 ∧
        ("Bearer " ++ env.uuid).data.take 7 = "Bearer ".data := by
      simp [String.data_append, hlen]
    have hdrop : (⟨("Bearer " ++ env.uuid).data.drop 7⟩ : String) = env.uuid := by
      apply String.ext
      simp [String.data_append]
    unfold GetUserIDFromToken
    simp only [hbearer, GenerateToken, hne2, if_false, hb, and_self, if_true, hdrop,
      Get_Set_same, Atoi_Itoa userID hid]

/-- Instance of C8: a token issued for account 123 on the empty store. -/
theorem token_round_trip_witness :
    inInt64 123 ∧ isUUIDString fixedEnv.uuid = true ∧
    (mkRequest "GET" "123e4567-e89b-12d3-a456-426614174000" "").authorization =
      (GenerateToken fixedEnv Redis.empty 123).2 ∧
    (mkRequest "GET" "Bearer 123e4567-e89b-12d3-a456-426614174000" "").authorization =
      "Bearer " ++ (GenerateToken fixedEnv Redis.empty 123).2 ∧
    GetUserIDFromToken (GenerateToken fixedEnv Redis.empty 123).1
      (mkRequest "GET" "123e4567-e89b-12d3-a456-426614174000" "") = .ok 123 ∧
    GetUserIDFromToken (GenerateToken fixedEnv Redis.empty 123).1
      (mkRequest "GET" "Bearer 123e4567-e89b-12d3-a456-426614174000" "") = .ok 123 :=
  ⟨by decide, by decide, by decide, by decide,
    token_round_trip fixedEnv Redis.empty 123
      (mkRequest "GET" "123e4567-e89b-12d3-a456-426614174000" "")
      (mkRequest "GET" "Bearer 123e4567-e89b-12d3-a456-426614174000" "")
      (by decide) (by decide) (by decide) (by decide)⟩

/-! ## Authentication on every route -/

theorem middleware_rejects (handlerName : String) (next : HandlerFunc) (env : Env)
    (rdb : Redis) (r : Request) (e : String)
    (hname : handlerName ≠ "RegisterHandler" ∧ handlerName ≠ "LoginHandler")
    (hauth : GetUserIDFromToken rdb r = .error e) :
    (AuthMiddleware handlerName next env rdb r).2.isFailure = true ∧
      (AuthMiddleware handlerName next env rdb r).1 = rdb := by
  unfold AuthMiddleware
  split
  · exact ⟨rfl, rfl⟩
  · split
    · exact ⟨rfl, rfl⟩
    · simp [hname, hauth, HttpResponse.isFailure]

theorem search_rejects (env : Env) (rdb : Redis) (r : Request) (e : String)
    (hauth : GetUserIDFromToken rdb r = .error e) :
    (UserSearchHandler env rdb r).2.isFailure = true ∧ (UserSearchHandler env rdb r).1 = rdb := by
  unfold UserSearchHandler
  dsimp only
  split
  · exact ⟨rfl, rfl⟩
  · simp [hauth, HttpResponse.isFailure]

theorem send_rejects (J : Json) (env : Env) (rdb : Redis) (r : Request) (e : String)
    (hauth : GetUserIDFromToken rdb r = .error e) :
    (FriendRequestHandler J env rdb r).2.isFailure = true ∧
      (FriendRequestHandler J env rdb r).1 = rdb := by
  unfold FriendRequestHandler
  simp [hauth, HttpResponse.isFailure]

theorem requestList_rejects (J : Json) (env : Env) (rdb : Redis) (r : Request) (e : String)
    (hauth : GetUserIDFromToken rdb r = .error e) :
    (FriendRequestListHandler J env rdb r).2.isFailure = true ∧
      (FriendRequestListHandler J env rdb r).1 = rdb := by
  unfold FriendRequestListHandler
  simp [hauth, HttpResponse.isFailure]

theorem respond_rejects (J : Json) (env : Env) (rdb : Redis) (r : Request) (e : String)
    (hauth : GetUserIDFromToken rdb r = .error e) :
    (AcceptRejectFriendRequestHandler J env rdb r).2.isFailure = true ∧
      (AcceptRejectFriendRequestHandler J env rdb r).1 = rdb := by
  unfold AcceptRejectFriendRequestHandler
  simp [hauth, HttpResponse.isFailure]

theorem friendList_rejects (J : Json) (env : Env) (rdb : Redis) (r : Request) (e : String)
    (hauth : GetUserIDFromToken rdb r = .error e) :
    (FriendListHandler J env rdb r).2.isFailure = true ∧
      (FriendListHandler J env rdb r).1 = rdb := by
  unfold FriendListHandler
  simp [hauth, HttpResponse.isFailure]

/-- C9: for every routed path other than /register and /login, a request whose
Authorization header is missing or does not resolve to an account id gets a
failure response and leaves the store unchanged. -/
theorem unauthenticated_request_rejected (J : Json) (SimulationHandler : HandlerFunc)
    (path : String) (handler : HandlerFunc) (env : Env) (rdb : Redis) (r : Request)
    (e : String)
    (hroute : serve J SimulationHandler path = some handler)
    (hpath : path ≠ "/register" ∧ path ≠ "/login")
    (hauth : GetUserIDFromToken rdb r = .error e) :
    (handler env rdb r).2.isFailure = true ∧ (handler env rdb r).1 = rdb := by
  unfold serve routes at hroute
  simp only [List.lookup] at hroute
  have h1 : (path == "/register") = false := by simpa using hpath.1
  have h2 : (path == "/login") = false := by simpa using hpath.2
  rw [h1, h2] at hroute
  dsimp only at hroute
  repeat' split at hroute
  all_goals
    first
    | (cases hroute; exact middleware_rejects _ _ env rdb r e (by decide) hauth)
    | (cases hroute; exact search_rejects env rdb r e hauth)
    | (cases hroute; exact send_rejects J env rdb r e hauth)
    | (cases hroute; exact requestList_rejects J env rdb r e hauth)
    | (cases hroute; exact respond_rejects J env rdb r e hauth)
    | (cases hroute; exact friendList_rejects J env rdb r e hauth)
    | cases hroute

/-- Instance of C9: the leaderboard route on a request without Authorization
header. -/
theorem unauthenticated_request_rejected_witness :
    serve fieldJson idleSimulation "/leaderboard" =
      some (AuthMiddleware "LeaderboardHandler" (LeaderboardHandler fieldJson)) ∧
    ("/leaderboard" ≠ "/register" ∧ "/leaderboard" ≠ "/login") ∧
    GetUserIDFromToken sampleStore (mkRequest "GET" "" "") =
      .error "Authorization token is missing" ∧
    (AuthMiddleware "LeaderboardHandler" (LeaderboardHandler fieldJson) fixedEnv sampleStore
        (mkRequest "GET" "" "")).2.isFailure = true ∧
    (AuthMiddleware "LeaderboardHandler" (LeaderboardHandler fieldJson) fixedEnv sampleStore
        (mkRequest "GET" "" "")).1 = sampleStore :=
  ⟨rfl, by decide, by decide,
    unauthenticated_request_rejected fieldJson idleSimulation "/leaderboard"
      (AuthMiddleware "LeaderboardHandler" (LeaderboardHandler fieldJson)) fixedEnv sampleStore
      (mkRequest "GET" "" "") "Authorization token is missing" rfl (by decide) (by decide)⟩

/-! ## Registration -/

/-- C10: registering a username that already maps to an account is answered
with a status:false envelope and leaves the store exactly as it was (account
records, username index, id counter and tokens), both by the handler itself and
on the route /register. -/
theorem register_taken_username_rejected (J : Json) (env : Env) (rdb : Redis) (r : Request)
    (newUser : User) (id : Int)
    (hbody : J.decodeUser r.body = .ok newUser)
    (htaken : rdb.Get (UsernamePrefix ++ newUser.Username) = some (Itoa id)) :
    RegisterHandler J env rdb r =
      (rdb, .json 200 ⟨false, .null, "Username already exists!"⟩) ∧
    (AuthMiddleware "RegisterHandler" (RegisterHandler J) env rdb r).1 = rdb ∧
    (AuthMiddleware "RegisterHandler" (RegisterHandler J) env rdb r).2.isFailure = true := by
  have hrun : RegisterHandler J env rdb r =
      (rdb, .json 200 ⟨false, .null, "Username already exists!"⟩) := by
    unfold RegisterHandler
    simp [hbody, htaken, Itoa_ne_empty]
  refine ⟨hrun, ?_, ?_⟩
  · unfold AuthMiddleware
    split
    · rfl
    · split
      · rfl
      · simp [hrun]
  · unfold AuthMiddleware
    split
    · rfl
    · split
      · rfl
      · simp [hrun, HttpResponse.isFailure]

/-- Instance of C10: a second registration of the username ada. -/
theorem register_taken_username_rejected_witness :
    fieldJson.decodeUser (mkRequest "POST" "" "0,Augusta,King,ada,other").body =
      .ok ⟨0, "Augusta", "King", "ada", "other"⟩ ∧
    friendsStore.Get (UsernamePrefix ++ "ada") = some (Itoa 1) ∧
    RegisterHandler fieldJson fixedEnv friendsStore
        (mkRequest "POST" "" "0,Augusta,King,ada,other") =
      (friendsStore, .json 200 ⟨false, .null, "Username already exists!"⟩) :=
  ⟨by decide, by decide,
    (register_taken_username_rejected fieldJson fixedEnv friendsStore
      (mkRequest "POST" "" "0,Augusta,King,ada,other") ⟨0, "Augusta", "King", "ada", "other"⟩ 1
      (by decide) (by decide)).1⟩

/-! ## Facts about pages -/

theorem wrapInt_of_inInt64 (i : Int) (h : inInt64 i) : wrapInt i = i := by
  unfold inInt64 at h
  unfold wrapInt
  norm_num at h ⊢
  omega

theorem rangeSlice_of_nonneg {α : Type} (l : List α) (start stop : Int) (h0 : 0 ≤ start)
    (h1 : 0 ≤ stop) :
    rangeSlice l start stop =
      if start > stop ∨ start ≥ (l.length : Int) then []
      else (l.drop start.toNat).take
        ((if stop ≥ (l.length : Int) then (l.length : Int) - 1 else stop) - start + 1).toNat := by
  unfold rangeSlice
  have hs : ¬ start < 0 := by omega
  have ht : ¬ stop < 0 := by omega
  simp only [hs, ht, if_false]

theorem length_rangeSlice_le {α : Type} (l : List α) (start stop : Int) (h0 : 0 ≤ start)
    (h1 : start ≤ stop) :
    ((rangeSlice l start stop).length : Int) ≤ stop - start + 1 := by
  rw [rangeSlice_of_nonneg l start stop h0 (by omega)]
  split
  · simp only [List.length_nil, Nat.cast_zero]; omega
  · simp only [List.length_take, List.length_drop]
    split <;> omega

theorem pageWindow_of_fit (p c : Int) (hp : 1 ≤ p) (hc : 1 ≤ c) (hfit : p * c < 2 ^ 63) :
    pageWindow p c = ((p - 1) * c, p * c - 1) := by
  have hmul : (p - 1) * c = p * c - c := by ring
  have h0 : 0 ≤ (p - 1) * c := mul_nonneg (by omega) (by omega)
  have hstart : wrapInt ((p - 1) * c) = (p - 1) * c := by
    apply wrapInt_of_inInt64
    unfold inInt64
    norm_num at hfit ⊢
    omega
  have hstop : wrapInt ((p - 1) * c + c - 1) = p * c - 1 := by
    rw [wrapInt_of_inInt64]
    · omega
    · unfold inInt64
      norm_num at hfit ⊢
      omega
  unfold pageWindow
  simp only [hstart, hstop]

theorem one_le_effectivePage (s : String) : 1 ≤ effectivePage s := by
  unfold effectivePage
  split
  · exact le_refl _
  · split <;> omega

theorem one_le_effectiveCount (s : String) : 1 ≤ effectiveCount s := by
  unfold effectiveCount
  split
  · decide
  · split <;> omega

theorem leaderboardRows_rank (J : Json) (rdb : Redis) (start : Int) :
    ∀ (users : List (String × Int)) (i : Nat) (rows : List LeaderboardRow),
      leaderboardRows J rdb start i users = .ok rows →
        rows.length = users.length ∧
          ∀ (k : Nat) (row : LeaderboardRow), rows[k]? = some row →
            row.rank = wrapInt (start + ((i + k : Nat) : Int) + 1) := by
  intro users
  induction users with
  | nil =>
    intro i rows h
    unfold leaderboardRows at h
    cases h
    simp
  | cons u users ih =>
    intro i rows h
    unfold leaderboardRows at h
    split at h
    · cases h
    · split at h
      · cases h
      · split at h
        · cases h
        · rename_i rest hrest
          cases h
          obtain ⟨hlen, hrank⟩ := ih (i + 1) rest hrest
          refine ⟨by simp [hlen], ?_⟩
          intro k row hk
          cases k with
          | zero =>
            simp at hk
            rw [← hk]
            simp
          | succ k =>
            simp at hk
            rw [hrank k row hk]
            congr 1
            push_cast
            ring

theorem leaderboard_run (J : Json) (env : Env) (rdb : Redis) (r : Request)
    (hmethod : r.method = "GET") :
    LeaderboardHandler J env rdb r =
      (rdb,
        match leaderboardRows J rdb
            (wrapInt ((effectivePage (r.query "page") - 1) * effectiveCount (r.query "count"))) 0
            (rdb.ZRevRangeWithScores Leaderboard
              (wrapInt ((effectivePage (r.query "page") - 1) * effectiveCount (r.query "count")))
              (wrapInt (wrapInt ((effectivePage (r.query "page") - 1) *
                effectiveCount (r.query "count")) + effectiveCount (r.query "count") - 1))) with
        | .error err => .error err 500
        | .ok leaderboard => .json 200 ⟨true, .leaderboard leaderboard, ""⟩) := by
  unfold LeaderboardHandler effectivePage effectiveCount
  simp only [hmethod, ne_eq, not_true_eq_false, if_false]
  split <;> simp_all

/-! ## The leaderboard page -/

/-- C11, amended: when page * count stays below 2^63 (no overflow of the 64 bit
`int`), the entry at zero-based index i of the returned leaderboard page carries
rank 1 + (page - 1) * count + i, for the effective page and count. -/
theorem leaderboard_ranks_absolute (J : Json) (env : Env) (rdb : Redis) (r : Request)
    (rows : List LeaderboardRow)
    (hmethod : r.method = "GET")
    (hfit : effectivePage (r.query "page") * effectiveCount (r.query "count") < 2 ^ 63)
    (hresp : (LeaderboardHandler J env rdb r).2 = .json 200 ⟨true, .leaderboard rows, ""⟩) :
    ∀ (i : Nat) (row : LeaderboardRow), rows[i]? = some row →
      row.rank =
        1 + (effectivePage (r.query "page") - 1) * effectiveCount (r.query "count") + i := by
  have hP := one_le_effectivePage (r.query "page")
  have hC := one_le_effectiveCount (r.query "count")
  rw [leaderboard_run J env rdb r hmethod] at hresp
  generalize effectivePage (r.query "page") = P at *
  generalize effectiveCount (r.query "count") = C at *
  have hmul : (P - 1) * C = P * C - C := by ring
  have h0 : 0 ≤ (P - 1) * C := mul_nonneg (by omega) (by omega)
  have hstart : wrapInt ((P - 1) * C) = (P - 1) * C := by
    apply wrapInt_of_inInt64
    unfold inInt64
    norm_num at hfit ⊢
    omega
  have hstop : wrapInt ((P - 1) * C + C - 1) = (P - 1) * C + C - 1 := by
    apply wrapInt_of_inInt64
    unfold inInt64
    norm_num at hfit ⊢
    omega
  simp only [hstart, hstop] at hresp
  intro i row hrow
  cases hrows : leaderboardRows J rdb ((P - 1) * C) 0
      (rdb.ZRevRangeWithScores Leaderboard ((P - 1) * C) ((P - 1) * C + C - 1)) with
  | error err => rw [hrows] at hresp; cases hresp
  | ok found =>
    rw [hrows] at hresp
    have hfound : found = rows := by
      injection hresp with _ h2
      injection h2 with _ h3 _
      injection h3
    subst hfound
    obtain ⟨hlen, hrank⟩ := leaderboardRows_rank J rdb _ _ 0 found hrows
    have hi : i < found.length := by
      by_contra hge
      rw [List.getElem?_eq_none (by omega)] at hrow
      cases hrow
    have hbound := length_rangeSlice_le (rdb.zsets Leaderboard).reverse ((P - 1) * C)
      ((P - 1) * C + C - 1) h0 (by omega)
    have hlen2 : ((found.length : Nat) : Int) ≤ C := by
      rw [hlen]
      unfold Redis.ZRevRangeWithScores
      omega
    rw [hrank i row hrow]
    rw [wrapInt_of_inInt64]
    · push_cast
      ring
    · unfold inInt64
      norm_num at hfit ⊢
      omega

/-- Instance of C11: the first page of ten on a leaderboard of two accounts. -/
theorem leaderboard_ranks_absolute_witness :
    (pageRequest "GET" "" "1" "10").method = "GET" ∧
    effectivePage ((pageRequest "GET" "" "1" "10").query "page") *
      effectiveCount ((pageRequest "GET" "" "1" "10").query "count") < 2 ^ 63 ∧
    (LeaderboardHandler fieldJson fixedEnv scoredStore (pageRequest "GET" "" "1" "10")).2 =
      .json 200 ⟨true, .leaderboard [⟨1, "ada", 1, 3⟩, ⟨2, "alan", 2, 1⟩], ""⟩ ∧
    ∀ (i : Nat) (row : LeaderboardRow),
      ([⟨1, "ada", 1, 3⟩, ⟨2, "alan", 2, 1⟩] : List LeaderboardRow)[i]? = some row →
        row.rank =
          1 + (effectivePage ((pageRequest "GET" "" "1" "10").query "page") - 1) *
            effectiveCount ((pageRequest "GET" "" "1" "10").query "count") + i :=
  ⟨rfl, by decide, by set_option maxRecDepth 100000 in decide,
    leaderboard_ranks_absolute fieldJson fixedEnv scoredStore (pageRequest "GET" "" "1" "10")
      [⟨1, "ada", 1, 3⟩, ⟨2, "alan", 2, 1⟩] rfl (by decide)
      (by set_option maxRecDepth 100000 in decide)⟩

/-- C11 as stated fails: with page 4 and count 6148914691236517205 the product
(page - 1) * count is 2^64 - 1, which wraps to -1; the handler returns the last
entry of the leaderboard with rank 0, not 1 + (page - 1) * count. -/
theorem leaderboard_rank_overflow :
    ¬ ∀ rows : List LeaderboardRow,
      (LeaderboardHandler fieldJson fixedEnv scoredStore
        (pageRequest "GET" "" "4" "6148914691236517205")).2 =
          .json 200 ⟨true, .leaderboard rows, ""⟩ →
      ∀ (i : Nat) (row : LeaderboardRow), rows[i]? = some row →
        row.rank = 1 + (effectivePage "4" - 1) * effectiveCount "6148914691236517205" + i := by
  intro h
  have h2 := h [⟨2, "alan", 0, 1⟩] (by set_option maxRecDepth 100000 in decide) 0
    ⟨2, "alan", 0, 1⟩ rfl
  revert h2
  decide

/-- C12: the leaderboard never rejects its pagination parameters.  With p the
page as sent, or 1 when the page sent is not usable (not the text of an int, or
below 1), and c the count as sent, or 10 when the count sent is not usable, each
on its own, the handler reads the entries of the leaderboard from index
(p - 1) * c to index (p - 1) * c + c - 1 of the descending order (in 64 bit
arithmetic; from (p - 1) * c to p * c - 1 when p * c stays below 2^63), resolves
them and answers with that page.  Hence a request whose page or count is not
usable is answered exactly like the request that sends 1 or 10 in its place,
and the answer is never the invalid-argument response. -/
theorem leaderboard_lenient_pagination (J : Json) (env : Env) (rdb : Redis) (r q : Request)
    (hr : r.method = "GET") (hq : q.method = "GET")
    (hpage : q.query "page" =
      if invalidParam (r.query "page") then "1" else r.query "page")
    (hcount : q.query "count" =
      if invalidParam (r.query "count") then "10" else r.query "count") :
    (∀ p c : Int,
      (if invalidParam (r.query "page") = true then p = 1
        else Atoi (r.query "page") = some p) →
      (if invalidParam (r.query "count") = true then c = 10
        else Atoi (r.query "count") = some c) →
      LeaderboardHandler J env rdb r =
          (rdb,
            match leaderboardRows J rdb (wrapInt ((p - 1) * c)) 0
                (rdb.ZRevRangeWithScores Leaderboard (wrapInt ((p - 1) * c))
                  (wrapInt (wrapInt ((p - 1) * c) + c - 1))) with
            | .error err => .error err 500
            | .ok leaderboard => .json 200 ⟨true, .leaderboard leaderboard, ""⟩) ∧
        (p * c < 2 ^ 63 →
          LeaderboardHandler J env rdb r =
            (rdb,
              match leaderboardRows J rdb ((p - 1) * c) 0
                  (rdb.ZRevRangeWithScores Leaderboard ((p - 1) * c) (p * c - 1)) with
              | .error err => .error err 500
              | .ok leaderboard => .json 200 ⟨true, .leaderboard leaderboard, ""⟩))) ∧
    LeaderboardHandler J env rdb r = LeaderboardHandler J env rdb q ∧
    (invalidParam (r.query "page") = true → effectivePage (r.query "page") = 1) ∧
    (invalidParam (r.query "count") = true → effectiveCount (r.query "count") = 10) ∧
    (LeaderboardHandler J env rdb r).2.code ≠ 400 := by
  have h1 : Atoi "1" = some 1 := by decide
  have h10 : Atoi "10" = some 10 := by decide
  have hp : effectivePage (q.query "page") = effectivePage (r.query "page") := by
    rw [hpage]
    unfold effectivePage invalidParam
    cases hA : Atoi (r.query "page") with
    | none => simp [h1]
    | some v =>
      by_cases hv : v < 1
      · simp [hv, h1]
      · simp [hv, hA]
  have hc : effectiveCount (q.query "count") = effectiveCount (r.query "count") := by
    rw [hcount]
    unfold effectiveCount invalidParam
    cases hA : Atoi (r.query "count") with
    | none => simp [h10]
    | some v =>
      by_cases hv : v < 1
      · simp [hv, h10]
      · simp [hv, hA]
  have hpage1 : invalidParam (r.query "page") = true → effectivePage (r.query "page") = 1 := by
    intro h
    unfold invalidParam at h
    unfold effectivePage
    split at h
    · simp_all
    · rename_i v hv
      simp only [decide_eq_true_eq] at h
      simp [hv, h]
  have hcount10 :
      invalidParam (r.query "count") = true → effectiveCount (r.query "count") = 10 := by
    intro h
    unfold invalidParam at h
    unfold effectiveCount
    split at h
    · simp_all
    · rename_i v hv
      simp only [decide_eq_true_eq] at h
      simp [hv, h]
  refine ⟨?_, ?_, hpage1, hcount10, ?_⟩
  · intro p c hpv hcv
    have hP : effectivePage (r.query "page") = p := by
      by_cases hi : invalidParam (r.query "page") = true
      · rw [if_pos hi] at hpv
        rw [hpage1 hi, hpv]
      · rw [if_neg hi] at hpv
        unfold invalidParam at hi
        unfold effectivePage
        rw [hpv] at hi ⊢
        simp only [decide_eq_true_eq] at hi
        simp [hi]
    have hC : effectiveCount (r.query "count") = c := by
      by_cases hi : invalidParam (r.query "count") = true
      · rw [if_pos hi] at hcv
        rw [hcount10 hi, hcv]
      · rw [if_neg hi] at hcv
        unfold invalidParam at hi
        unfold effectiveCount
        rw [hcv] at hi ⊢
        simp only [decide_eq_true_eq] at hi
        simp [hi]
    have hrun := leaderboard_run J env rdb r hr
    rw [hP, hC] at hrun
    refine ⟨hrun, ?_⟩
    intro hfit
    have hp1 : 1 ≤ p := hP ▸ one_le_effectivePage (r.query "page")
    have hc1 : 1 ≤ c := hC ▸ one_le_effectiveCount (r.query "count")
    have hw := pageWindow_of_fit p c hp1 hc1 hfit
    unfold pageWindow at hw
    have hw1 : wrapInt ((p - 1) * c) = (p - 1) * c := congrArg Prod.fst hw
    have hw2 : wrapInt (wrapInt ((p - 1) * c) + c - 1) = p * c - 1 := congrArg Prod.snd hw
    rw [hrun, hw2, hw1]
  · rw [leaderboard_run J env rdb r hr, leaderboard_run J env rdb q hq, hp, hc]
  · rw [leaderboard_run J env rdb r hr]
    dsimp only
    split <;> simp [HttpResponse.code]

/-- Instance of C12: page 0 with count 5 is answered like page 1 with count 5,
from the entries at the indexes 0 to 4. -/
theorem leaderboard_lenient_pagination_witness :
    (pageRequest "GET" "" "0" "5").method = "GET" ∧
    (pageRequest "GET" "" "1" "5").method = "GET" ∧
    ((pageRequest "GET" "" "1" "5").query "page" =
      if invalidParam ((pageRequest "GET" "" "0" "5").query "page") then "1"
      else (pageRequest "GET" "" "0" "5").query "page") ∧
    ((pageRequest "GET" "" "1" "5").query "count" =
      if invalidParam ((pageRequest "GET" "" "0" "5").query "count") then "10"
      else (pageRequest "GET" "" "0" "5").query "count") ∧
    LeaderboardHandler fieldJson fixedEnv scoredStore (pageRequest "GET" "" "0" "5") =
      (scoredStore,
        match leaderboardRows fieldJson scoredStore ((1 - 1) * 5) 0
            (scoredStore.ZRevRangeWithScores Leaderboard ((1 - 1) * 5) (1 * 5 - 1)) with
        | .error err => .error err 500
        | .ok leaderboard => .json 200 ⟨true, .leaderboard leaderboard, ""⟩) ∧
    LeaderboardHandler fieldJson fixedEnv scoredStore (pageRequest "GET" "" "0" "5") =
      LeaderboardHandler fieldJson fixedEnv scoredStore (pageRequest "GET" "" "1" "5") :=
  have h := leaderboard_lenient_pagination fieldJson fixedEnv scoredStore
    (pageRequest "GET" "" "0" "5") (pageRequest "GET" "" "1" "5") rfl rfl
    (by decide) (by decide)
  ⟨rfl, rfl, by decide, by decide,
    (h.1 1 5 (by decide) (by decide)).2 (by decide), h.2.1⟩

/-! ## Strict pagination of the friendship listings -/

theorem requestList_run (J : Json) (env : Env) (rdb : Redis) (r : Request) (userID : Int)
    (hauth : GetUserIDFromToken rdb r = .ok userID) :
    FriendRequestListHandler J env rdb r =
      if invalidParam (r.query "page") then (rdb, .error "Invalid page parameter" 400)
      else if invalidParam (r.query "count") then (rdb, .error "Invalid count parameter" 400)
      else
        (rdb,
          match friendRequestRows J env rdb 0
              (rdb.ZRange (FriendRequestPrefix ++ Itoa userID)
                (pageWindow ((Atoi (r.query "page")).getD 0)
                  ((Atoi (r.query "count")).getD 0)).1
                (pageWindow ((Atoi (r.query "page")).getD 0)
                  ((Atoi (r.query "count")).getD 0)).2) with
          | .error err => .error err 500
          | .ok requests => .json 200 ⟨true, .requests requests, ""⟩) := by
  unfold FriendRequestListHandler invalidParam
  simp only [hauth]
  cases hp : Atoi (r.query "page") with
  | none => simp
  | some p =>
    dsimp only
    by_cases hp1 : p < 1
    · simp [hp1]
    · cases hc : Atoi (r.query "count") with
      | none => simp [hp1]
      | some c =>
        dsimp only
        by_cases hc1 : c < 1
        · simp [hp1, hc1]
        · simp only [hp1, hc1, if_false, decide_False, Option.getD_some]
          split <;> simp_all

theorem friendList_run (J : Json) (env : Env) (rdb : Redis) (r : Request) (userID : Int)
    (hauth : GetUserIDFromToken rdb r = .ok userID) :
    FriendListHandler J env rdb r =
      if invalidParam (r.query "page") then (rdb, .error "Invalid page parameter" 400)
      else if invalidParam (r.query "count") then (rdb, .error "Invalid count parameter" 400)
      else
        (rdb,
          match friendRows J rdb
              (rdb.ZRange (FriendPrefix ++ Itoa userID)
                (pageWindow ((Atoi (r.query "page")).getD 0)
                  ((Atoi (r.query "count")).getD 0)).1
                (pageWindow ((Atoi (r.query "page")).getD 0)
                  ((Atoi (r.query "count")).getD 0)).2) with
          | .error err => .error err 500
          | .ok friendDetails => .json 200 ⟨true, .friends friendDetails, ""⟩) := by
  unfold FriendListHandler invalidParam
  simp only [hauth]
  cases hp : Atoi (r.query "page") with
  | none => simp
  | some p =>
    dsimp only
    by_cases hp1 : p < 1
    · simp [hp1]
    · cases hc : Atoi (r.query "count") with
      | none => simp [hp1]
      | some c =>
        dsimp only
        by_cases hc1 : c < 1
        · simp [hp1, hc1]
        · simp only [hp1, hc1, if_false, decide_False, Option.getD_some]
          split <;> simp_all

/-- C13, amended: for an authenticated caller, the friend-request listing and
the friend listing answer with the invalid-argument response (400), fixed by
the request alone whatever the store holds, if and only if page or count is not
the text of an int or is below 1; otherwise, when page * count stays below 2^63,
they query exactly the index window from (page - 1) * count to page * count - 1
of the set of the caller. -/
theorem listings_validate_pagination (J : Json) (env : Env) (rdb : Redis) (r : Request)
    (userID : Int) (hauth : GetUserIDFromToken rdb r = .ok userID) :
    ((invalidParam (r.query "page") || invalidParam (r.query "count")) = true →
      FriendRequestListHandler J env rdb r =
          (rdb, .error (if invalidParam (r.query "page") then "Invalid page parameter"
            else "Invalid count parameter") 400) ∧
        FriendListHandler J env rdb r =
          (rdb, .error (if invalidParam (r.query "page") then "Invalid page parameter"
            else "Invalid count parameter") 400)) ∧
    ((invalidParam (r.query "page") || invalidParam (r.query "count")) = false →
      (FriendRequestListHandler J env rdb r).2.code ≠ 400 ∧
        (FriendListHandler J env rdb r).2.code ≠ 400) ∧
    (∀ p c : Int, Atoi (r.query "page") = some p → Atoi (r.query "count") = some c →
      1 ≤ p → 1 ≤ c → p * c < 2 ^ 63 →
      FriendRequestListHandler J env rdb r =
          (rdb,
            match friendRequestRows J env rdb 0
                (rdb.ZRange (FriendRequestPrefix ++ Itoa userID) ((p - 1) * c) (p * c - 1)) with
            | .error err => .error err 500
            | .ok requests => .json 200 ⟨true, .requests requests, ""⟩) ∧
        FriendListHandler J env rdb r =
          (rdb,
            match friendRows J rdb
                (rdb.ZRange (FriendPrefix ++ Itoa userID) ((p - 1) * c) (p * c - 1)) with
            | .error err => .error err 500
            | .ok friendDetails => .json 200 ⟨true, .friends friendDetails, ""⟩)) := by
  have h1 := requestList_run J env rdb r userID hauth
  have h2 := friendList_run J env rdb r userID hauth
  refine ⟨?_, ?_, ?_⟩
  · intro h
    rw [h1, h2]
    by_cases hp : invalidParam (r.query "page") = true
    · simp [hp]
    · have hc : invalidParam (r.query "count") = true := by
        simp only [Bool.or_eq_true] at h
        rcases h with h | h
        · exact absurd h hp
        · exact h
      simp [hp, hc]
  · intro h
    simp only [Bool.or_eq_false_iff] at h
    rw [h1, h2]
    simp only [h.1, h.2, Bool.false_eq_true, if_false]
    constructor
    · dsimp only
      split <;> simp [HttpResponse.code]
    · dsimp only
      split <;> simp [HttpResponse.code]
  · intro p c hp hc hp1 hc1 hfit
    have hip : invalidParam (r.query "page") = false := by
      unfold invalidParam
      simp only [hp, decide_eq_false_iff_not]
      omega
    have hic : invalidParam (r.query "count") = false := by
      unfold invalidParam
      simp only [hc, decide_eq_false_iff_not]
      omega
    rw [h1, h2]
    simp only [hip, hic, Bool.false_eq_true, if_false, hp, hc, Option.getD_some,
      pageWindow_of_fit p c hp1 hc1 hfit, and_self]

/-- Instance of C13: account 7 lists the first page of ten of its requests and
of its friends; both listings query the window from 0 to 9. -/
theorem listings_validate_pagination_witness :
    GetUserIDFromToken sampleStore (pageRequest "GET" bearer7 "1" "10") = .ok 7 ∧
    Atoi ((pageRequest "GET" bearer7 "1" "10").query "page") = some 1 ∧
    Atoi ((pageRequest "GET" bearer7 "1" "10").query "count") = some 10 ∧
    (FriendRequestListHandler fieldJson fixedEnv sampleStore
        (pageRequest "GET" bearer7 "1" "10") =
      (sampleStore,
        match friendRequestRows fieldJson fixedEnv sampleStore 0
            (sampleStore.ZRange (FriendRequestPrefix ++ Itoa 7) ((1 - 1) * 10) (1 * 10 - 1)) with
        | .error err => .error err 500
        | .ok requests => .json 200 ⟨true, .requests requests, ""⟩) ∧
      FriendListHandler fieldJson fixedEnv sampleStore (pageRequest "GET" bearer7 "1" "10") =
        (sampleStore,
          match friendRows fieldJson sampleStore
              (sampleStore.ZRange (FriendPrefix ++ Itoa 7) ((1 - 1) * 10) (1 * 10 - 1)) with
          | .error err => .error err 500
          | .ok friendDetails => .json 200 ⟨true, .friends friendDetails, ""⟩)) :=
  ⟨by decide, by decide, by decide,
    (listings_validate_pagination fieldJson fixedEnv sampleStore
      (pageRequest "GET" bearer7 "1" "10") 7 (by decide)).2.2 1 10 (by decide) (by decide)
      (by decide) (by decide) (by decide)⟩

/-- C13 as stated fails: with page 4 and count 6148914691236517205 the start of
the window wraps to -1, and the listing of account 7 returns its last request,
whereas the window from (page - 1) * count to page * count - 1 holds none. -/
theorem listing_window_overflow :
    ¬ (FriendRequestListHandler fieldJson fixedEnv sampleStore
        (pageRequest "GET" bearer7 "4" "6148914691236517205") =
      (sampleStore,
        match friendRequestRows fieldJson fixedEnv sampleStore 0
            (sampleStore.ZRange (FriendRequestPrefix ++ Itoa 7)
              ((4 - 1) * 6148914691236517205) (4 * 6148914691236517205 - 1)) with
        | .error err => .error err 500
        | .ok requests => .json 200 ⟨true, .requests requests, ""⟩)) := by
  intro h
  have h2 := congrArg Prod.snd h
  revert h2
  set_option maxRecDepth 100000 in decide

/-! ## Updating an account -/

theorem user_ne_username (a b : String) : UserPrefix ++ a ≠ UsernamePrefix ++ b := by
  intro h
  have hd := congrArg String.data h
  simp [String.data_append] at hd

theorem Get_Set (rdb : Redis) (key value k : String) :
    (rdb.Set key value).Get k = if k = key then some value else rdb.Get k := by
  unfold Redis.Get Redis.Set
  by_cases h : k = key
  · subst h; simp
  · simp [h]

theorem Get_Del (rdb : Redis) (key k : String) :
    (rdb.Del key).Get k = if k = key then none else rdb.Get k := by
  unfold Redis.Get Redis.Del
  by_cases h : k = key
  · subst h; simp
  · simp [h]

theorem update_run (J : Json) (env : Env) (rdb : Redis) (r : Request) (patch existing : User)
    (j : String) (hmethod : r.method = "POST")
    (hauth : GetUserIDFromToken rdb r = .ok patch.ID)
    (hbody : J.decodeUser r.body = .ok patch)
    (hrecord : rdb.Get (UserPrefix ++ Itoa patch.ID) = some j)
    (hparse : J.unmarshalUser j = .ok existing) :
    UpdateInfoHandler J env rdb r =
      if (decide (patch.Username ≠ "" ∧ patch.Username ≠ existing.Username) &&
          decide ((rdb.Get (UsernamePrefix ++ patch.Username)).getD "" ≠ "")) = true then
        (rdb, .json 200 ⟨false, .null, "Username already exists!"⟩)
      else
        match (if patch.Password ≠ "" then
            (passwordToHash env patch.Password).map fun h =>
              ({ existing with
                  Name := patch.Name, Surname := patch.Surname, Username := patch.Username,
                  Password := h } : User)
          else
            some { existing with
              Name := patch.Name, Surname := patch.Surname, Username := patch.Username }) with
        | none =>
          (if decide (patch.Username ≠ "" ∧ patch.Username ≠ existing.Username) = true then
              (rdb.Set (UsernamePrefix ++ patch.Username) (Itoa patch.ID)).Del
                (UsernamePrefix ++ existing.Username)
            else rdb,
            .json 200 ⟨false, .null, "Failed to hash password!"⟩)
        | some updated =>
          ((if decide (patch.Username ≠ "" ∧ patch.Username ≠ existing.Username) = true then
              (rdb.Set (UsernamePrefix ++ patch.Username) (Itoa patch.ID)).Del
                (UsernamePrefix ++ existing.Username)
            else rdb).Set (UserPrefix ++ Itoa updated.ID) (J.marshalUser updated),
            .json 200 ⟨true, .user updated, ""⟩) := by
  have hexists : checkUserExists rdb patch.ID = true := by
    unfold checkUserExists Redis.Exists
    unfold Redis.Get at hrecord
    simp [hrecord]
  unfold UpdateInfoHandler
  simp only [hmethod, hauth, hbody, hexists, hrecord, hparse, ne_eq, not_true_eq_false,
    if_false, Bool.not_true, Bool.false_eq_true]

/-- C14, amended: for an account whose record carries the username u and a patch
with a non-empty username other than u, the update is answered with the
status:false envelope and leaves the store unchanged when the new username
already maps to an account; and after a successful update the index maps the
new username to the id of the account and has no entry for u. -/
theorem update_keeps_index_in_step (J : Json) (env : Env) (rdb : Redis) (r : Request)
    (patch existing : User) (j : String)
    (hmethod : r.method = "POST")
    (hauth : GetUserIDFromToken rdb r = .ok patch.ID)
    (hbody : J.decodeUser r.body = .ok patch)
    (hrecord : rdb.Get (UserPrefix ++ Itoa patch.ID) = some j)
    (hparse : J.unmarshalUser j = .ok existing)
    (hnonempty : patch.Username ≠ "")
    (hdiff : patch.Username ≠ existing.Username) :
    (∀ other : Int, rdb.Get (UsernamePrefix ++ patch.Username) = some (Itoa other) →
      UpdateInfoHandler J env rdb r =
        (rdb, .json 200 ⟨false, .null, "Username already exists!"⟩)) ∧
    ((UpdateInfoHandler J env rdb r).2.isFailure = false →
      (UpdateInfoHandler J env rdb r).1.Get (UsernamePrefix ++ patch.Username) =
          some (Itoa patch.ID) ∧
        (UpdateInfoHandler J env rdb r).1.Get (UsernamePrefix ++ existing.Username) = none) := by
  have hrun := update_run J env rdb r patch existing j hmethod hauth hbody hrecord hparse
  have hchanges : decide (patch.Username ≠ "" ∧ patch.Username ≠ existing.Username) = true := by
    simp [hnonempty, hdiff]
  have hkeys : UsernamePrefix ++ patch.Username ≠ UsernamePrefix ++ existing.Username :=
    fun h => hdiff (key_cancel _ _ _ h)
  constructor
  · intro other hother
    rw [hrun]
    simp [hchanges, hother, Itoa_ne_empty]
  · intro hsuccess
    by_cases htaken : (rdb.Get (UsernamePrefix ++ patch.Username)).getD "" ≠ ""
    · have hc : (decide (patch.Username ≠ "" ∧ patch.Username ≠ existing.Username) &&
          decide ((rdb.Get (UsernamePrefix ++ patch.Username)).getD "" ≠ "")) = true := by
        simp [hchanges, htaken]
      rw [hrun, if_pos hc] at hsuccess
      simp [HttpResponse.isFailure] at hsuccess
    · have hc : ¬ (decide (patch.Username ≠ "" ∧ patch.Username ≠ existing.Username) &&
          decide ((rdb.Get (UsernamePrefix ++ patch.Username)).getD "" ≠ "")) = true := by
        simp [htaken]
      rw [if_neg hc, if_pos hchanges] at hrun
      generalize (if patch.Password ≠ "" then _ else _ : Option User) = hashed at hrun
      cases hashed with
      | none =>
        rw [hrun] at hsuccess
        simp [HttpResponse.isFailure] at hsuccess
      | some updated =>
        rw [hrun]
        simp only [Get_Set, Get_Del, hkeys, (user_ne_username _ _).symm, if_false, if_true,
          and_self]

/-- Instance of C14: the account ada takes the free username countess. -/
theorem update_keeps_index_in_step_witness :
    (mkRequest "POST" bearerAda "1,Ada,King,countess,").method = "POST" ∧
    GetUserIDFromToken friendsStore (mkRequest "POST" bearerAda "1,Ada,King,countess,") =
      .ok 1 ∧
    fieldJson.decodeUser (mkRequest "POST" bearerAda "1,Ada,King,countess,").body =
      .ok ⟨1, "Ada", "King", "countess", ""⟩ ∧
    friendsStore.Get (UserPrefix ++ Itoa 1) = some "1,Ada,Lovelace,ada,$2a$14$pw" ∧
    fieldJson.unmarshalUser "1,Ada,Lovelace,ada,$2a$14$pw" =
      .ok ⟨1, "Ada", "Lovelace", "ada", "$2a$14$pw"⟩ ∧
    "countess" ≠ "" ∧ "countess" ≠ "ada" ∧
    ((UpdateInfoHandler fieldJson fixedEnv friendsStore
        (mkRequest "POST" bearerAda "1,Ada,King,countess,")).2.isFailure = false →
      (UpdateInfoHandler fieldJson fixedEnv friendsStore
          (mkRequest "POST" bearerAda "1,Ada,King,countess,")).1.Get
          (UsernamePrefix ++ "countess") = some (Itoa 1) ∧
        (UpdateInfoHandler fieldJson fixedEnv friendsStore
          (mkRequest "POST" bearerAda "1,Ada,King,countess,")).1.Get
          (UsernamePrefix ++ "ada") = none) :=
  ⟨rfl, by decide, by decide, by decide, by decide, by decide, by decide,
    (update_keeps_index_in_step fieldJson fixedEnv friendsStore
      (mkRequest "POST" bearerAda "1,Ada,King,countess,") ⟨1, "Ada", "King", "countess", ""⟩
      ⟨1, "Ada", "Lovelace", "ada", "$2a$14$pw"⟩ "1,Ada,Lovelace,ada,$2a$14$pw"
      rfl (by decide) (by decide) (by decide) (by decide) (by decide) (by decide)).2⟩

/-- C14 as stated fails for a patch with the empty username: the update of the
account ada succeeds, and afterwards the index still maps ada to the account
and has no entry for the empty username. -/
theorem update_empty_username_leaves_index :
    ¬ ((UpdateInfoHandler fieldJson fixedEnv friendsStore
        (mkRequest "POST" bearerAda "1,Ada,Lovelace,,")).2.isFailure = false →
      (UpdateInfoHandler fieldJson fixedEnv friendsStore
          (mkRequest "POST" bearerAda "1,Ada,Lovelace,,")).1.Get (UsernamePrefix ++ "") =
          some (Itoa 1) ∧
        (UpdateInfoHandler fieldJson fixedEnv friendsStore
          (mkRequest "POST" bearerAda "1,Ada,Lovelace,,")).1.Get (UsernamePrefix ++ "ada") =
          none) := by
  set_option maxRecDepth 100000 in decide

/-- C15: after a successful update the record written for the account carries
the name, surname and username of the patch, empty or not, and the id of the
record it replaces; its password hash is the old one when the patch password is
empty and the hash freshly computed from the patch password otherwise.  The
record is stored under the id it carries and returned in the response. -/
theorem update_overwrites_profile (J : Json) (env : Env) (rdb : Redis) (r : Request)
    (patch existing : User) (j : String)
    (hmethod : r.method = "POST")
    (hauth : GetUserIDFromToken rdb r = .ok patch.ID)
    (hbody : J.decodeUser r.body = .ok patch)
    (hrecord : rdb.Get (UserPrefix ++ Itoa patch.ID) = some j)
    (hparse : J.unmarshalUser j = .ok existing)
    (hsuccess : (UpdateInfoHandler J env rdb r).2.isFailure = false) :
    ∃ hash : String,
      (patch.Password = "" → hash = existing.Password) ∧
      (patch.Password ≠ "" → passwordToHash env patch.Password = some hash) ∧
      (UpdateInfoHandler J env rdb r).1.Get (UserPrefix ++ Itoa existing.ID) =
        some (J.marshalUser
          ⟨existing.ID, patch.Name, patch.Surname, patch.Username, hash⟩) ∧
      (UpdateInfoHandler J env rdb r).2 =
        .json 200 ⟨true,
          .user ⟨existing.ID, patch.Name, patch.Surname, patch.Username, hash⟩, ""⟩ := by
  have hrun := update_run J env rdb r patch existing j hmethod hauth hbody hrecord hparse
  by_cases hc : (decide (patch.Username ≠ "" ∧ patch.Username ≠ existing.Username) &&
      decide ((rdb.Get (UsernamePrefix ++ patch.Username)).getD "" ≠ "")) = true
  · rw [hrun, if_pos hc] at hsuccess
    simp [HttpResponse.isFailure] at hsuccess
  · rw [if_neg hc] at hrun
    by_cases hpw : patch.Password = ""
    · have hn : ¬ patch.Password ≠ "" := fun h => h hpw
      rw [if_neg hn] at hrun
      refine ⟨existing.Password, fun _ => rfl, fun h => absurd hpw h, ?_, ?_⟩
      · rw [hrun]
        simp only [Get_Set, if_true]
      · rw [hrun]
    · rw [if_pos hpw] at hrun
      cases hh : passwordToHash env patch.Password with
      | none =>
        rw [hh] at hrun
        rw [hrun] at hsuccess
        simp [HttpResponse.isFailure] at hsuccess
      | some hash =>
        rw [hh] at hrun
        refine ⟨hash, fun h => absurd h hpw, fun _ => rfl, ?_, ?_⟩
        · rw [hrun]
          simp only [Option.map_some', Get_Set, if_true]
        · rw [hrun]
          rfl

/-- Instance of C15: the account ada changes surname and username, blanks no
field and sends no password. -/
theorem update_overwrites_profile_witness :
    (mkRequest "POST" bearerAda "1,Ada,King,countess,").method = "POST" ∧
    GetUserIDFromToken friendsStore (mkRequest "POST" bearerAda "1,Ada,King,countess,") =
      .ok 1 ∧
    fieldJson.decodeUser (mkRequest "POST" bearerAda "1,Ada,King,countess,").body =
      .ok ⟨1, "Ada", "King", "countess", ""⟩ ∧
    friendsStore.Get (UserPrefix ++ Itoa 1) = some "1,Ada,Lovelace,ada,$2a$14$pw" ∧
    fieldJson.unmarshalUser "1,Ada,Lovelace,ada,$2a$14$pw" =
      .ok ⟨1, "Ada", "Lovelace", "ada", "$2a$14$pw"⟩ ∧
    (UpdateInfoHandler fieldJson fixedEnv friendsStore
      (mkRequest "POST" bearerAda "1,Ada,King,countess,")).2.isFailure = false ∧
    ∃ hash : String,
      (("" : String) = "" → hash = "$2a$14$pw") ∧
      (("" : String) ≠ "" → passwordToHash fixedEnv "" = some hash) ∧
      (UpdateInfoHandler fieldJson fixedEnv friendsStore
          (mkRequest "POST" bearerAda "1,Ada,King,countess,")).1.Get (UserPrefix ++ Itoa 1) =
        some (fieldJson.marshalUser ⟨1, "Ada", "King", "countess", hash⟩) ∧
      (UpdateInfoHandler fieldJson fixedEnv friendsStore
          (mkRequest "POST" bearerAda "1,Ada,King,countess,")).2 =
        .json 200 ⟨true, .user ⟨1, "Ada", "King", "countess", hash⟩, ""⟩ :=
  ⟨rfl, by decide, by decide, by decide, by decide,
    by set_option maxRecDepth 100000 in decide,
    update_overwrites_profile fieldJson fixedEnv friendsStore
      (mkRequest "POST" bearerAda "1,Ada,King,countess,") ⟨1, "Ada", "King", "countess", ""⟩
      ⟨1, "Ada", "Lovelace", "ada", "$2a$14$pw"⟩ "1,Ada,Lovelace,ada,$2a$14$pw"
      rfl (by decide) (by decide) (by decide) (by decide)
      (by set_option maxRecDepth 100000 in decide)⟩

/-! ## Uniqueness of usernames -/

/-- C16 fails on the code: after two registrations and one patch without
username from each account, a store reachable by register and update
operations, the records of the distinct accounts 1 and 2 carry the same
username, the empty one. -/
theorem blank_updates_duplicate_username :
    Reachable fieldJson [OpKind.register, OpKind.update] blankStore ∧
    (1 : Int) ≠ 2 ∧
    recordOf fieldJson blankStore 1 = some ⟨1, "Ada", "Lovelace", "", "$2a$14$pw"⟩ ∧
    recordOf fieldJson blankStore 2 = some ⟨2, "Alan", "Turing", "", "$2a$14$pw"⟩ :=
  ⟨Reachable.step opAlanBlank (by decide)
      (Reachable.step opAdaBlank (by decide)
        (Reachable.step opRegisterAlan (by decide)
          (Reachable.step opRegisterAda (by decide) Reachable.empty))),
    by decide,
    by set_option maxRecDepth 100000 in decide,
    by set_option maxRecDepth 100000 in decide⟩

/-! ## Unresolvable friends -/

theorem friendRows_of_parsing (J : Json) (rdb : Redis) :
    ∀ friends : List String, (∀ f ∈ friends, parsesIfPresent J rdb f = true) →
      friendRows J rdb friends = .ok (friends.filterMap (resolveFriend J rdb)) := by
  intro friends
  induction friends with
  | nil => intro _; rfl
  | cons f rest ih =>
    intro h
    have hf := h f (List.mem_cons_self _ _)
    have hrest := ih fun g hg => h g (List.mem_cons_of_mem _ hg)
    unfold friendRows
    unfold parsesIfPresent at hf
    cases hget : rdb.Get (UserPrefix ++ f) with
    | none =>
      simp only [hrest]
      simp [List.filterMap_cons, resolveFriend, hget]
    | some data =>
      rw [hget] at hf
      dsimp only at hf ⊢
      cases hparse : J.unmarshalUserDetails data with
      | error e => rw [hparse] at hf; simp at hf
      | ok d =>
        simp only [hrest]
        simp [List.filterMap_cons, resolveFriend, hget, hparse]

/-- C17, amended: for an authenticated caller and a valid page, when every
record that is present for a friend of the page parses, the friend listing
succeeds and returns exactly the friends of the page that have a record, in
their stored order; a friend without a record is passed over. -/
theorem friend_list_skips_absent (J : Json) (env : Env) (rdb : Redis) (r : Request)
    (userID p c : Int)
    (hauth : GetUserIDFromToken rdb r = .ok userID)
    (hpage : Atoi (r.query "page") = some p) (hp : 1 ≤ p)
    (hcount : Atoi (r.query "count") = some c) (hc : 1 ≤ c)
    (hparse : ∀ f ∈ rdb.ZRange (FriendPrefix ++ Itoa userID) (pageWindow p c).1
      (pageWindow p c).2, parsesIfPresent J rdb f = true) :
    FriendListHandler J env rdb r =
      (rdb, .json 200 ⟨true,
        .friends ((rdb.ZRange (FriendPrefix ++ Itoa userID) (pageWindow p c).1
          (pageWindow p c).2).filterMap (resolveFriend J rdb)), ""⟩) ∧
    (∀ f : String, rdb.Get (UserPrefix ++ f) = none → resolveFriend J rdb f = none) := by
  constructor
  · have hip : invalidParam (r.query "page") = false := by
      unfold invalidParam
      simp only [hpage, decide_eq_false_iff_not]
      omega
    have hic : invalidParam (r.query "count") = false := by
      unfold invalidParam
      simp only [hcount, decide_eq_false_iff_not]
      omega
    rw [friendList_run J env rdb r userID hauth]
    simp only [hip, hic, Bool.false_eq_true, if_false, hpage, hcount, Option.getD_some,
      friendRows_of_parsing J rdb _ hparse]
  · intro f hf
    simp [resolveFriend, hf]

/-- Instance of C17: account 1 has the friends 2, with a record, and 5, without
one. -/
theorem friend_list_skips_absent_witness :
    GetUserIDFromToken absentFriendStore (pageRequest "GET" bearerAda "1" "10") = .ok 1 ∧
    Atoi ((pageRequest "GET" bearerAda "1" "10").query "page") = some 1 ∧ (1 : Int) ≤ 1 ∧
    Atoi ((pageRequest "GET" bearerAda "1" "10").query "count") = some 10 ∧ (1 : Int) ≤ 10 ∧
    (∀ f ∈ absentFriendStore.ZRange (FriendPrefix ++ Itoa 1) (pageWindow 1 10).1
      (pageWindow 1 10).2, parsesIfPresent fieldJson absentFriendStore f = true) ∧
    absentFriendStore.ZRange (FriendPrefix ++ Itoa 1) (pageWindow 1 10).1 (pageWindow 1 10).2 =
      ["2", "5"] ∧
    FriendListHandler fieldJson fixedEnv absentFriendStore (pageRequest "GET" bearerAda "1" "10") =
      (absentFriendStore, .json 200 ⟨true,
        .friends ((absentFriendStore.ZRange (FriendPrefix ++ Itoa 1) (pageWindow 1 10).1
          (pageWindow 1 10).2).filterMap (resolveFriend fieldJson absentFriendStore)), ""⟩) :=
  ⟨by decide, by decide, by decide, by decide, by decide,
    by set_option maxRecDepth 100000 in decide,
    by set_option maxRecDepth 100000 in decide,
    (friend_list_skips_absent fieldJson fixedEnv absentFriendStore
      (pageRequest "GET" bearerAda "1" "10") 1 1 10 (by decide) (by decide) (by decide)
      (by decide) (by decide) (by set_option maxRecDepth 100000 in decide)).1⟩

/-- C17 as stated fails for a record that is present but does not parse: the
friend listing of account 1, whose friend 2 has such a record, does not skip
the friend and succeed, it answers 500. -/
theorem friend_list_fails_on_malformed :
    (FriendListHandler fieldJson fixedEnv malformedStore
      (pageRequest "GET" bearerAda "1" "10")).2 = .error "Error parsing user data" 500 ∧
    ¬ ((FriendListHandler fieldJson fixedEnv malformedStore
        (pageRequest "GET" bearerAda "1" "10")).2 =
      .json 200 ⟨true,
        .friends ((malformedStore.ZRange (FriendPrefix ++ Itoa 1) (pageWindow 1 10).1
          (pageWindow 1 10).2).filterMap (resolveFriend fieldJson malformedStore)), ""⟩) := by
  set_option maxRecDepth 100000 in decide

/-! ## Leaderboard entries without an account -/

theorem leaderboardRows_absent (J : Json) (rdb : Redis) (start : Int) :
    ∀ (users : List (String × Int)) (i : Nat) (e : String × Int) (id : Int),
      e ∈ users → Atoi e.1 = some id → rdb.Get (UserPrefix ++ Itoa id) = none →
        ∃ err, leaderboardRows J rdb start i users = .error err := by
  intro users
  induction users with
  | nil => intro i e id he; cases he
  | cons u users ih =>
    intro i e id he hid habsent
    unfold leaderboardRows
    cases hu : Atoi u.1 with
    | none => exact ⟨_, rfl⟩
    | some uid =>
      dsimp only
      cases hg : GetUserByID J rdb uid with
      | error err => exact ⟨err, rfl⟩
      | ok found =>
        dsimp only
        rcases List.mem_cons.mp he with heq | hmem
        · subst heq
          rw [hid] at hu
          cases hu
          unfold GetUserByID at hg
          rw [habsent] at hg
          cases hg
        · obtain ⟨err, herr⟩ := ih (i + 1) e id hmem hid habsent
          rw [herr]
          exact ⟨err, rfl⟩

/-- C18, amended: the leaderboard does not resolve a missing account as
unknown.  When the requested page holds an entry whose account record is absent
from the store, the call fails with status 500 and returns no page; the store
is left as it is. -/
theorem leaderboard_fails_on_absent_account (J : Json) (env : Env) (rdb : Redis)
    (r : Request) (e : String × Int) (id : Int)
    (hmethod : r.method = "GET")
    (hentry : e ∈ rdb.ZRevRangeWithScores Leaderboard
      (pageWindow (effectivePage (r.query "page")) (effectiveCount (r.query "count"))).1
      (pageWindow (effectivePage (r.query "page")) (effectiveCount (r.query "count"))).2)
    (hid : Atoi e.1 = some id)
    (habsent : rdb.Get (UserPrefix ++ Itoa id) = none) :
    ∃ err, LeaderboardHandler J env rdb r = (rdb, .error err 500) := by
  rw [leaderboard_run J env rdb r hmethod]
  unfold pageWindow at hentry
  obtain ⟨err, herr⟩ := leaderboardRows_absent J rdb _ _ 0 e id hentry hid habsent
  rw [herr]
  exact ⟨err, rfl⟩

/-- Instance of C18: the first page of a leaderboard that holds an entry for
account 9, which has no record. -/
theorem leaderboard_fails_on_absent_account_witness :
    (pageRequest "GET" "" "1" "10").method = "GET" ∧
    (("9", 5) : String × Int) ∈ orphanStore.ZRevRangeWithScores Leaderboard
      (pageWindow (effectivePage ((pageRequest "GET" "" "1" "10").query "page"))
        (effectiveCount ((pageRequest "GET" "" "1" "10").query "count"))).1
      (pageWindow (effectivePage ((pageRequest "GET" "" "1" "10").query "page"))
        (effectiveCount ((pageRequest "GET" "" "1" "10").query "count"))).2 ∧
    Atoi "9" = some 9 ∧
    orphanStore.Get (UserPrefix ++ Itoa 9) = none ∧
    ∃ err, LeaderboardHandler fieldJson fixedEnv orphanStore (pageRequest "GET" "" "1" "10") =
      (orphanStore, .error err 500) :=
  ⟨rfl, by set_option maxRecDepth 100000 in decide, by decide,
    by set_option maxRecDepth 100000 in decide,
    leaderboard_fails_on_absent_account fieldJson fixedEnv orphanStore
      (pageRequest "GET" "" "1" "10") ("9", 5) 9 rfl
      (by set_option maxRecDepth 100000 in decide) (by decide)
      (by set_option maxRecDepth 100000 in decide)⟩

/-- C18 as stated fails: on a leaderboard with an entry for account 9, which
has no record, the first page is not returned; the answer is the error
"User not found" with status 500. -/
theorem leaderboard_page_not_returned :
    ¬ ∃ rows : List LeaderboardRow,
      (LeaderboardHandler fieldJson fixedEnv orphanStore (pageRequest "GET" "" "1" "10")).2 =
        .json 200 ⟨true, .leaderboard rows, ""⟩ := by
  have h : (LeaderboardHandler fieldJson fixedEnv orphanStore
      (pageRequest "GET" "" "1" "10")).2 = .error "User not found" 500 := by
    set_option maxRecDepth 100000 in decide
  rintro ⟨rows, hrows⟩
  rw [h] at hrows
  cases hrows

/-! ## Reporting of authentication failures -/

theorem token_lookup_absent (rdb : Redis) (r : Request) (hheader : r.authorization ≠ "")
    (habsent : rdb.Get (TokenPrefix ++ bearerToken r.authorization) = none) :
    GetUserIDFromToken rdb r = .error "Invalid or expired token" := by
  unfold bearerToken at habsent
  unfold GetUserIDFromToken
  simp only [hheader, if_false]
  rw [habsent]

/-- C19, amended: two requests that both fail authentication get identical
responses on the friendship endpoints (401 "Invalid token"; on the search
endpoint when both name a user or both name none).  On an endpoint behind
AuthMiddleware the response repeats the error of the token lookup, so two
failing requests with the same method get identical responses when the lookup
fails in the same way, as it does for any two tokens that are unknown or
expired; a missing header is reported differently. -/
theorem auth_failures_reported_alike (J : Json) (env : Env) (rdb : Redis) (r1 r2 : Request)
    (e1 e2 : String)
    (hfail1 : GetUserIDFromToken rdb r1 = .error e1)
    (hfail2 : GetUserIDFromToken rdb r2 = .error e2) :
    (FriendRequestHandler J env rdb r1).2 = (FriendRequestHandler J env rdb r2).2 ∧
    (FriendRequestListHandler J env rdb r1).2 = (FriendRequestListHandler J env rdb r2).2 ∧
    (AcceptRejectFriendRequestHandler J env rdb r1).2 =
      (AcceptRejectFriendRequestHandler J env rdb r2).2 ∧
    (FriendListHandler J env rdb r1).2 = (FriendListHandler J env rdb r2).2 ∧
    ((r1.query "username" = "" ↔ r2.query "username" = "") →
      (UserSearchHandler env rdb r1).2 = (UserSearchHandler env rdb r2).2) ∧
    (∀ (handlerName : String) (next : HandlerFunc),
      handlerName ≠ "RegisterHandler" → handlerName ≠ "LoginHandler" →
      r1.method = r2.method → e1 = e2 →
        (AuthMiddleware handlerName next env rdb r1).2 =
          (AuthMiddleware handlerName next env rdb r2).2) ∧
    (r1.authorization ≠ "" → r2.authorization ≠ "" →
      rdb.Get (TokenPrefix ++ bearerToken r1.authorization) = none →
      rdb.Get (TokenPrefix ++ bearerToken r2.authorization) = none → e1 = e2) := by
  refine ⟨?_, ?_, ?_, ?_, ?_, ?_, ?_⟩
  · unfold FriendRequestHandler
    simp only [hfail1, hfail2]
  · unfold FriendRequestListHandler
    simp only [hfail1, hfail2]
  · unfold AcceptRejectFriendRequestHandler
    simp only [hfail1, hfail2]
  · unfold FriendListHandler
    simp only [hfail1, hfail2]
  · intro hname
    unfold UserSearchHandler
    by_cases h1 : r1.query "username" = ""
    · have h2 := hname.mp h1
      simp [h1, h2]
    · have h2 : ¬ r2.query "username" = "" := fun h => h1 (hname.mpr h)
      simp [h1, h2, hfail1, hfail2]
  · intro handlerName next hn1 hn2 hmethod he
    unfold AuthMiddleware
    cases allowedMethods.lookup handlerName with
    | none => rfl
    | some allowed =>
      dsimp only
      rw [hmethod]
      by_cases hm : r2.method ≠ allowed
      · rw [if_pos hm, if_pos hm]
      · rw [if_neg hm, if_neg hm, if_pos ⟨hn1, hn2⟩, if_pos ⟨hn1, hn2⟩]
        simp only [hfail1, hfail2, he]
  · intro hh1 hh2 ha1 ha2
    have t1 := token_lookup_absent rdb r1 hh1 ha1
    have t2 := token_lookup_absent rdb r2 hh2 ha2
    rw [hfail1] at t1
    rw [hfail2] at t2
    injection t1 with t1
    injection t2 with t2
    rw [t1, t2]

/-- Instance of C19: two requests with different unknown tokens. -/
theorem auth_failures_reported_alike_witness :
    GetUserIDFromToken sampleStore (pageRequest "GET" "nope" "1" "10") =
      .error "Invalid or expired token" ∧
    GetUserIDFromToken sampleStore (pageRequest "GET" "Bearer stale" "1" "10") =
      .error "Invalid or expired token" ∧
    (FriendListHandler fieldJson fixedEnv sampleStore (pageRequest "GET" "nope" "1" "10")).2 =
      (FriendListHandler fieldJson fixedEnv sampleStore
        (pageRequest "GET" "Bearer stale" "1" "10")).2 :=
  ⟨by decide, by decide,
    (auth_failures_reported_alike fieldJson fixedEnv sampleStore
      (pageRequest "GET" "nope" "1" "10") (pageRequest "GET" "Bearer stale" "1" "10")
      "Invalid or expired token" "Invalid or expired token" (by decide) (by decide)).2.2.2.1⟩

/-- C19 as stated fails on the endpoints behind AuthMiddleware: on the
leaderboard route a request without Authorization header and a request with an
unknown token both fail authentication and get different responses. -/
theorem auth_failures_distinguishable :
    serve fieldJson idleSimulation "/leaderboard" =
      some (AuthMiddleware "LeaderboardHandler" (LeaderboardHandler fieldJson)) ∧
    GetUserIDFromToken sampleStore (pageRequest "GET" "" "1" "10") =
      .error "Authorization token is missing" ∧
    GetUserIDFromToken sampleStore (pageRequest "GET" "nope" "1" "10") =
      .error "Invalid or expired token" ∧
    (AuthMiddleware "LeaderboardHandler" (LeaderboardHandler fieldJson) fixedEnv sampleStore
        (pageRequest "GET" "" "1" "10")).2 =
      .json 401 ⟨false, .null, "Unauthorized: Authorization token is missing"⟩ ∧
    (AuthMiddleware "LeaderboardHandler" (LeaderboardHandler fieldJson) fixedEnv sampleStore
        (pageRequest "GET" "nope" "1" "10")).2 =
      .json 401 ⟨false, .null, "Unauthorized: Invalid or expired token"⟩ ∧
    (AuthMiddleware "LeaderboardHandler" (LeaderboardHandler fieldJson) fixedEnv sampleStore
        (pageRequest "GET" "" "1" "10")).2 ≠
      (AuthMiddleware "LeaderboardHandler" (LeaderboardHandler fieldJson) fixedEnv sampleStore
        (pageRequest "GET" "nope" "1" "10")).2 :=
  ⟨rfl, by decide, by decide, by decide, by decide, by decide⟩

/-! ## No account is its own requester or friend -/

theorem user_ne_token (a b : String) : UserPrefix ++ a ≠ TokenPrefix ++ b := by
  intro h
  have hd := congrArg String.data h
  simp [String.data_append] at hd

theorem user_ne_nextUserID (a : String) : UserPrefix ++ a ≠ NextUserID := by
  intro h
  have hd := congrArg String.data h
  simp [String.data_append] at hd

theorem Incr_eq_Set (rdb rdb2 : Redis) (key : String) (id : Int)
    (h : rdb.Incr key = .ok (rdb2, id)) : ∃ v, rdb2 = rdb.Set key v := by
  unfold Redis.Incr at h
  split at h
  · injection h with h
    injection h with h1 h2
    exact ⟨_, h1.symm⟩
  · split at h
    · cases h
    · split at h
      · injection h with h
        injection h with h1 h2
        exact ⟨_, h1.symm⟩
      · cases h

theorem register_user_keys (J : Json) (env : Env) (rdb : Redis) (r : Request) (t : String)
    (h : (RegisterHandler J env rdb r).1.Get (UserPrefix ++ t) ≠ none) :
    rdb.Get (UserPrefix ++ t) ≠ none ∨ ∃ id : Int, t = Itoa id := by
  unfold RegisterHandler at h
  cases hd : J.decodeUser r.body with
  | error e => rw [hd] at h; exact Or.inl h
  | ok u =>
    rw [hd] at h
    dsimp only at h
    by_cases hex : (rdb.Get (UsernamePrefix ++ u.Username)).getD "" ≠ ""
    · rw [if_pos hex] at h; exact Or.inl h
    · rw [if_neg hex] at h
      cases hh : passwordToHash env u.Password with
      | none => rw [hh] at h; exact Or.inl h
      | some hp =>
        rw [hh] at h
        dsimp only at h
        cases hi : rdb.Incr NextUserID with
        | error e => rw [hi] at h; exact Or.inl h
        | ok p =>
          obtain ⟨rdb2, id⟩ := p
          rw [hi] at h
          obtain ⟨v, hv⟩ := Incr_eq_Set rdb rdb2 _ id hi
          subst hv
          simp only [GenerateToken, Get_Set, user_ne_token, user_ne_username,
            user_ne_nextUserID, if_false] at h
          by_cases hk : UserPrefix ++ t = UserPrefix ++ Itoa id
          · exact Or.inr ⟨id, key_cancel _ _ _ hk⟩
          · rw [if_neg hk] at h
            exact Or.inl h

theorem send_store_cases_strict (J : Json) (env : Env) (rdb : Redis) (r : Request) :
    (FriendRequestHandler J env rdb r).1 = rdb ∨
    ∃ (t : String) (u score : Int),
      rdb.Get (UserPrefix ++ t) ≠ none ∧ Itoa u ≠ t ∧
        (FriendRequestHandler J env rdb r).1 =
          rdb.ZAdd (FriendRequestPrefix ++ t) score (Itoa u) := by
  unfold FriendRequestHandler
  cases GetUserIDFromToken rdb r with
  | error e => exact Or.inl rfl
  | ok userID =>
    dsimp only
    cases J.decodeFriendRequest r.body with
    | error e => exact Or.inl rfl
    | ok request =>
      dsimp only
      by_cases hself : Itoa userID = request.UserID
      · rw [if_pos hself]; exact Or.inl rfl
      · rw [if_neg hself]
        cases hg : rdb.Get (UserPrefix ++ request.UserID) with
        | none => exact Or.inl rfl
        | some data =>
          refine Or.inr ⟨request.UserID, userID, env.now 0, ?_, hself, rfl⟩
          rw [hg]
          simp

theorem respond_store_cases_strict (J : Json) (env : Env) (rdb : Redis) (r : Request) :
    (AcceptRejectFriendRequestHandler J env rdb r).1 = rdb ∨
    (∃ (u : Int) (a : String) (n0 n1 : Int), a ∈ pending rdb (Itoa u) ∧
      (AcceptRejectFriendRequestHandler J env rdb r).1 =
        ((rdb.ZAdd (FriendPrefix ++ Itoa u) n0 a).ZAdd (FriendPrefix ++ a) n1 (Itoa u)).ZRem
          (FriendRequestPrefix ++ Itoa u) a) ∨
    ∃ (u a : String),
      (AcceptRejectFriendRequestHandler J env rdb r).1 = rdb.ZRem (FriendRequestPrefix ++ u) a := by
  cases hauth : GetUserIDFromToken rdb r with
  | error e =>
    left
    unfold AcceptRejectFriendRequestHandler
    rw [hauth]
  | ok userID =>
    cases hbody : J.decodeAcceptFriendRequest r.body with
    | error e =>
      left
      unfold AcceptRejectFriendRequestHandler
      rw [hauth, hbody]
    | ok q =>
      by_cases hpending : q.RequesterID ∈ pending rdb (Itoa userID)
      · rw [respond_found J env rdb r userID q hauth hbody hpending]
        by_cases ha : q.Status = "accept"
        · rw [if_pos ha]
          exact Or.inr (Or.inl ⟨userID, q.RequesterID, _, _, hpending, rfl⟩)
        · rw [if_neg ha]
          by_cases hr : q.Status = "reject"
          · rw [if_pos hr]
            exact Or.inr (Or.inr ⟨_, _, rfl⟩)
          · rw [if_neg hr]
            exact Or.inl rfl
      · by_cases hs : q.Status = "accept" ∨ q.Status = "reject"
        · rw [respond_not_found J env rdb r userID q hauth hbody hs hpending]
          exact Or.inl rfl
        · left
          unfold AcceptRejectFriendRequestHandler
          rw [hauth, hbody]
          dsimp only
          have hs2 : q.Status ≠ "accept" ∧ q.Status ≠ "reject" := by
            constructor
            · exact fun h => hs (Or.inl h)
            · exact fun h => hs (Or.inr h)
          rw [if_pos hs2]

theorem mem_pending_ZAdd (rdb : Redis) (t x y m : String) (score : Int) :
    m ∈ pending (rdb.ZAdd (FriendRequestPrefix ++ t) score x) y ↔
      (y = t ∧ m = x) ∨ m ∈ pending rdb y := by
  unfold pending
  rw [zsets_ZAdd]
  by_cases hy : y = t
  · subst hy
    simp [mem_members_add]
  · have hk : FriendRequestPrefix ++ y ≠ FriendRequestPrefix ++ t :=
      fun h => hy (key_cancel _ _ _ h)
    simp [hk, hy]

theorem pending_ZAdd_friends (rdb : Redis) (k x y : String) (score : Int) :
    pending (rdb.ZAdd (FriendPrefix ++ k) score x) y = pending rdb y := by
  unfold pending
  rw [zsets_ZAdd]
  simp [(friends_ne_friendrequest _ _).symm]

theorem mem_pending_ZRem (rdb : Redis) (u a y m : String)
    (h : m ∈ pending (rdb.ZRem (FriendRequestPrefix ++ u) a) y) : m ∈ pending rdb y := by
  unfold pending at h ⊢
  rw [zsets_ZRem] at h
  by_cases hk : FriendRequestPrefix ++ y = FriendRequestPrefix ++ u
  · rw [if_pos hk] at h
    rw [hk]
    exact ((mem_members_remove _ _ _).mp h).1
  · rw [if_neg hk] at h
    exact h

theorem reachable_canonical (J : Json) (rdb : Redis)
    (hreach : Reachable J [OpKind.register, OpKind.send, OpKind.respond] rdb) :
    (∀ t : String, rdb.Get (UserPrefix ++ t) ≠ none → ∃ id : Int, t = Itoa id) ∧
    (∀ x m : String, m ∈ pending rdb x →
      (∃ b : Int, x = Itoa b) ∧ (∃ u : Int, m = Itoa u) ∧ m ≠ x) ∧
    (∀ x m : String, m ∈ friendsOf rdb x →
      (∃ b : Int, x = Itoa b) ∧ (∃ u : Int, m = Itoa u) ∧ m ≠ x) := by
  induction hreach with
  | empty =>
    refine ⟨?_, ?_, ?_⟩
    · intro t h; exact absurd rfl h
    · intro x m h; simp [pending, Redis.empty, ZSet.members] at h
    · intro x m h; simp [friendsOf, Redis.empty, ZSet.members] at h
  | @step s op hkind _ ih =>
    obtain ⟨iu, ip, ifr⟩ := ih
    have hk : op.kind = .register ∨ op.kind = .send ∨ op.kind = .respond := by
      simpa using hkind
    unfold Op.run
    rcases hk with hk | hk | hk
    · simp only [hk]
      have hz := register_zsets J op.env s op.request
      refine ⟨?_, ?_, ?_⟩
      · intro t ht
        rcases register_user_keys J op.env s op.request t ht with h | h
        · exact iu t h
        · exact h
      · intro x m hm
        simp only [pending, hz] at hm
        exact ip x m hm
      · intro x m hm
        simp only [friendsOf, hz] at hm
        exact ifr x m hm
    · simp only [hk]
      rcases send_store_cases_strict J op.env s op.request with h | ⟨t, u, score, ht, hne, h⟩
      · rw [h]; exact ⟨iu, ip, ifr⟩
      · rw [h]
        refine ⟨iu, ?_, ?_⟩
        · intro x m hm
          rcases (mem_pending_ZAdd _ _ _ _ _ _).mp hm with ⟨hx, hmu⟩ | hold
          · subst hx
            subst hmu
            exact ⟨iu x ht, ⟨u, rfl⟩, hne⟩
          · exact ip x m hold
        · intro x m hm
          rw [friendsOf_ZAdd_request] at hm
          exact ifr x m hm
    · simp only [hk]
      rcases respond_store_cases_strict J op.env s op.request with
        h | ⟨u, a, n0, n1, hpend, h⟩ | ⟨u, a, h⟩
      · rw [h]; exact ⟨iu, ip, ifr⟩
      · rw [h]
        obtain ⟨_, ⟨w, hw⟩, hau⟩ := ip (Itoa u) a hpend
        refine ⟨iu, ?_, ?_⟩
        · intro x m hm
          have h1 := mem_pending_ZRem _ _ _ _ _ hm
          rw [pending_ZAdd_friends, pending_ZAdd_friends] at h1
          exact ip x m h1
        · intro x m hm
          rw [friendsOf_ZRem_request, mem_friendsOf_ZAdd, mem_friendsOf_ZAdd] at hm
          rcases hm with ⟨hx, hmu⟩ | ⟨hx, hma⟩ | hold
          · subst hx
            subst hmu
            exact ⟨⟨w, hw⟩, ⟨u, rfl⟩, fun h => hau h.symm⟩
          · subst hx
            subst hma
            exact ⟨⟨u, rfl⟩, ⟨w, hw⟩, hau⟩
          · exact ifr x m hold
      · rw [h]
        refine ⟨iu, ?_, ?_⟩
        · intro x m hm
          exact ip x m (mem_pending_ZRem _ _ _ _ _ hm)
        · intro x m hm
          rw [friendsOf_ZRem_request] at hm
          exact ifr x m hm

theorem parseInt_of_Atoi (s : String) (a : Int) (h : Atoi s = some a) : parseInt s = some a := by
  unfold Atoi at h
  split at h
  · cases h
  · split at h
    · rename_i i hi _
      injection h with h
      rw [hi, h]
    · cases h

/-- C20: in every store reachable from the empty store by register, send and
respond operations, no identifier is a member of its own pending-request set or
of its own friend set; and this holds by account, not only by text: a set whose
key reads as the id of an account, in whatever notation, does not contain the
decimal id of that account. -/
theorem no_self_request_or_friend (J : Json) (rdb : Redis)
    (hreach : Reachable J [OpKind.register, OpKind.send, OpKind.respond] rdb) :
    (∀ x : String, x ∉ pending rdb x ∧ x ∉ friendsOf rdb x) ∧
    (∀ (x : String) (a : Int), Atoi x = some a →
      Itoa a ∉ pending rdb x ∧ Itoa a ∉ friendsOf rdb x) := by
  obtain ⟨_, ip, ifr⟩ := reachable_canonical J rdb hreach
  have hkey : ∀ (x : String) (a b : Int), Atoi x = some a → x = Itoa b → Itoa a = x := by
    intro x a b ha hb
    have h1 := parseInt_of_Atoi x a ha
    rw [hb, parseInt_Itoa] at h1
    injection h1 with h1
    rw [hb, h1]
  constructor
  · intro x
    exact ⟨fun h => (ip x x h).2.2 rfl, fun h => (ifr x x h).2.2 rfl⟩
  · intro x a ha
    constructor
    · intro h
      obtain ⟨⟨b, hb⟩, _, hne⟩ := ip x (Itoa a) h
      exact hne (hkey x a b ha hb)
    · intro h
      obtain ⟨⟨b, hb⟩, _, hne⟩ := ifr x (Itoa a) h
      exact hne (hkey x a b ha hb)

/-- Instance of C20: the store after two registrations, a friend request and
its acceptance. -/
theorem no_self_request_or_friend_witness :
    Reachable fieldJson [OpKind.register, OpKind.send, OpKind.respond] friendsStore ∧
    friendsOf friendsStore "2" = ["1"] ∧
    (∀ x : String, x ∉ pending friendsStore x ∧ x ∉ friendsOf friendsStore x) :=
  have hreach : Reachable fieldJson [OpKind.register, OpKind.send, OpKind.respond]
      friendsStore :=
    Reachable.step opAdaAccepts (by decide)
      (Reachable.step opSendToAda (by decide)
        (Reachable.step opRegisterAlan (by decide)
          (Reachable.step opRegisterAda (by decide) Reachable.empty)))
  ⟨hreach, by decide, (no_self_request_or_friend fieldJson friendsStore hreach).1⟩

end GoProject
